import Mathlib

/-!
Verification of the bidirectional control-protocol engine of the
ripperdoc-agent-sdk-typescript repository.

The development shallowly embeds the relevant source files:
  - src/internal/query.ts   (Query class: correlation table, read loop,
    inbound dispatch, delivery queue, streamInput, close)
  - src/transport/stdio.ts  (StdioTransport.processBuffer framing step)
  - the in-process MCP server helpers (SdkMcpServer.callTool, listTools)

JavaScript records are modelled by the inductive JSON value type JVal;
JavaScript objects are association lists in insertion order (the key set of
a live JS object is duplicate-free).  Promises returned by
sendControlRequest are identified by the value of the monotonically
increasing request counter at their creation; the history of their
resolutions and rejections is recorded in the `settled` field of the
engine state.
-/

namespace RipperdocSdk

/-- A JSON value, the model of the untyped records the engine reads and
writes (numbers are integers; the protocol never relies on fractional
values). -/
inductive JVal where
  | null : JVal
  | bool (b : Bool) : JVal
  | num (n : Int) : JVal
  | str (s : String) : JVal
  | arr (items : List JVal) : JVal
  | obj (fields : List (String × JVal)) : JVal
deriving Repr, Inhabited

mutual

/-- Structural equality of JSON values, used to state concrete evaluations. -/
def JVal.beq : JVal → JVal → Bool
  | .null, .null => true
  | .bool a, .bool b => a == b
  | .num a, .num b => a == b
  | .str a, .str b => a == b
  | .arr a, .arr b => JVal.beqList a b
  | .obj a, .obj b => JVal.beqFields a b
  | _, _ => false

def JVal.beqList : List JVal → List JVal → Bool
  | [], [] => true
  | a :: as_, b :: bs => JVal.beq a b && JVal.beqList as_ bs
  | _, _ => false

def JVal.beqFields : List (String × JVal) → List (String × JVal) → Bool
  | [], [] => true
  | (k1, v1) :: as_, (k2, v2) :: bs => k1 == k2 && JVal.beq v1 v2 && JVal.beqFields as_ bs
  | _, _ => false

end

/-- Field access on a JSON object: the first binding of the key, mirroring a
JavaScript property read (live JS objects have unique keys). -/
def jGet (v : JVal) (key : String) : Option JVal :=
  match v with
  | .obj fields => fields.lookup key
  | _ => none

/-- Field access returning the value only when it is a string, mirroring the
TypeScript casts `x.field as string`. -/
def jGetStr (v : JVal) (key : String) : Option String :=
  match jGet v key with
  | some (.str s) => some s
  | _ => none

/-- JavaScript truthiness of a JSON value (empty arrays and objects are
truthy; empty strings, 0, false and null are falsy). -/
def jTruthy : JVal → Bool
  | .null => false
  | .bool b => b
  | .num n => n != 0
  | .str s => s ≠ ""
  | .arr _ => true
  | .obj _ => true

/-- Whether a JSON value passes the guard `payload && typeof payload ===
'object'` of handleControlResponse (arrays and objects do; null is falsy). -/
def isObjLike : JVal → Bool
  | .obj _ => true
  | .arr _ => true
  | _ => false

/-! ### Request-id generation

`sendControlRequest` builds its correlation id as
`req_${++this.requestCounter}_${randomBytes(4).toString('hex')}`.
The decimal counter segment contains no underscore and the hex suffix
contains no underscore, so two ids generated with different counter values
are different strings.  The lemmas of this section establish that. -/

/-- The correlation id string written into an outbound control_request,
from src/internal/query.ts line 456. -/
def mkRequestId (counter : Nat) (suffix : String) : String :=
  "req_" ++ Nat.repr counter ++ "_" ++ suffix

/-- The random suffix produced by `randomBytes(4).toString('hex')` consists
of hexadecimal digits, hence never contains an underscore; this predicate
captures the part of that fact the id format relies on. -/
def suffixOk (s : String) : Prop := '_' ∉ s.data

instance (s : String) : Decidable (suffixOk s) := by
  unfold suffixOk; infer_instance

theorem digitChar_ne_underscore (n : Nat) : Nat.digitChar n ≠ '_' := by
  by_cases h16 : n < 16
  · interval_cases n <;> decide
  · intro h
    unfold Nat.digitChar at h
    rw [if_neg (by omega : ¬ n = 0), if_neg (by omega : ¬ n = 1),
      if_neg (by omega : ¬ n = 2), if_neg (by omega : ¬ n = 3),
      if_neg (by omega : ¬ n = 4), if_neg (by omega : ¬ n = 5),
      if_neg (by omega : ¬ n = 6), if_neg (by omega : ¬ n = 7),
      if_neg (by omega : ¬ n = 8), if_neg (by omega : ¬ n = 9),
      if_neg (by omega : ¬ n = 10), if_neg (by omega : ¬ n = 11),
      if_neg (by omega : ¬ n = 12), if_neg (by omega : ¬ n = 13),
      if_neg (by omega : ¬ n = 14), if_neg (by omega : ¬ n = 15)] at h
    exact absurd h (by decide)

theorem toDigitsCore_succ (fuel n : Nat) (ds : List Char) :
    Nat.toDigitsCore 10 (fuel + 1) n ds =
      if n / 10 = 0 then Nat.digitChar (n % 10) :: ds
      else Nat.toDigitsCore 10 fuel (n / 10) (Nat.digitChar (n % 10) :: ds) := rfl

theorem toDigitsCore_ne_underscore (fuel : Nat) :
    ∀ (n : Nat) (ds : List Char), (∀ c ∈ ds, c ≠ '_') →
      ∀ c ∈ Nat.toDigitsCore 10 fuel n ds, c ≠ '_' := by
  induction fuel with
  | zero => intro n ds hds c hc; exact hds c hc
  | succ fuel ih =>
    intro n ds hds c hc
    rw [toDigitsCore_succ] at hc
    by_cases hz : n / 10 = 0
    · rw [if_pos hz, List.mem_cons] at hc
      rcases hc with rfl | hc
      · exact digitChar_ne_underscore _
      · exact hds c hc
    · rw [if_neg hz] at hc
      refine ih (n / 10) (Nat.digitChar (n % 10) :: ds) ?_ c hc
      intro d hd
      rw [List.mem_cons] at hd
      rcases hd with rfl | hd
      · exact digitChar_ne_underscore _
      · exact hds d hd

theorem repr_ne_underscore (n : Nat) : ∀ c ∈ (Nat.repr n).data, c ≠ '_' := by
  intro c hc
  have : (Nat.repr n).data = Nat.toDigits 10 n := rfl
  rw [this] at hc
  exact toDigitsCore_ne_underscore (n + 1) n [] (by simp) c hc

/-- The numeric value read back from a most-significant-first decimal digit
list, used to show that `Nat.repr` is injective. -/
def digitsVal (a : Nat) (l : List Char) : Nat :=
  l.foldl (fun acc c => 10 * acc + (c.toNat - 48)) a

theorem digitChar_mod_toNat (n : Nat) : (Nat.digitChar (n % 10)).toNat - 48 = n % 10 := by
  have h : n % 10 < 10 := Nat.mod_lt _ (by decide)
  interval_cases h10 : n % 10 <;> decide

theorem toDigitsCore_append (fuel : Nat) :
    ∀ (n : Nat) (ds : List Char),
      Nat.toDigitsCore 10 fuel n ds = Nat.toDigitsCore 10 fuel n [] ++ ds := by
  induction fuel with
  | zero => intro n ds; simp [Nat.toDigitsCore]
  | succ fuel ih =>
    intro n ds
    rw [toDigitsCore_succ, toDigitsCore_succ]
    by_cases hz : n / 10 = 0
    · rw [if_pos hz, if_pos hz]
      rfl
    · rw [if_neg hz, if_neg hz]
      rw [ih (n / 10) [Nat.digitChar (n % 10)], ih (n / 10) (Nat.digitChar (n % 10) :: ds)]
      simp

theorem toDigitsCore_val (fuel : Nat) :
    ∀ (n a : Nat), n < fuel →
      digitsVal a (Nat.toDigitsCore 10 fuel n []) =
        a * 10 ^ (Nat.toDigitsCore 10 fuel n []).length + n := by
  induction fuel with
  | zero => intro n a h; omega
  | succ fuel ih =>
    intro n a h
    rw [toDigitsCore_succ]
    by_cases hz : n / 10 = 0
    · rw [if_pos hz]
      simp only [digitsVal, List.foldl_cons, List.foldl_nil, List.length_cons,
        List.length_nil, digitChar_mod_toNat, pow_one, zero_add]
      omega
    · rw [if_neg hz]
      have hfuel : n / 10 < fuel := by
        have h1 : n / 10 < n := Nat.div_lt_self (by omega) (by decide)
        omega
      rw [toDigitsCore_append fuel (n / 10) [Nat.digitChar (n % 10)]]
      have hval : digitsVal a (Nat.toDigitsCore 10 fuel (n / 10) [] ++ [Nat.digitChar (n % 10)]) =
          10 * digitsVal a (Nat.toDigitsCore 10 fuel (n / 10) []) + (n % 10) := by
        simp [digitsVal, List.foldl_append, digitChar_mod_toNat]
      rw [hval, ih (n / 10) a hfuel]
      have hmod := Nat.div_add_mod n 10
      simp only [List.length_append, List.length_cons, List.length_nil, Nat.pow_succ, zero_add]
      ring_nf
      omega

theorem repr_injective {m n : Nat} (h : Nat.repr m = Nat.repr n) : m = n := by
  have hdata : (Nat.repr m).data = (Nat.repr n).data := by rw [h]
  have hm : (Nat.repr m).data = Nat.toDigitsCore 10 (m + 1) m [] := rfl
  have hn : (Nat.repr n).data = Nat.toDigitsCore 10 (n + 1) n [] := rfl
  have heq : Nat.toDigitsCore 10 (m + 1) m [] = Nat.toDigitsCore 10 (n + 1) n [] := by
    rw [← hm, ← hn, hdata]
  have hvm := toDigitsCore_val (m + 1) m 0 (Nat.lt_succ_self m)
  have hvn := toDigitsCore_val (n + 1) n 0 (Nat.lt_succ_self n)
  rw [heq] at hvm
  omega

/-- Splitting a character list at its first underscore is unambiguous. -/
theorem append_underscore_inj :
    ∀ (l1 l2 r1 r2 : List Char), (∀ c ∈ l1, c ≠ '_') → (∀ c ∈ l2, c ≠ '_') →
      l1 ++ '_' :: r1 = l2 ++ '_' :: r2 → l1 = l2 ∧ r1 = r2 := by
  intro l1
  induction l1 with
  | nil =>
    intro l2 r1 r2 _ h2 heq
    cases l2 with
    | nil => simpa using heq
    | cons c l2 =>
      simp only [List.nil_append, List.cons_append, List.cons.injEq] at heq
      exact absurd heq.1.symm (h2 c (by simp))
  | cons c l1 ih =>
    intro l2 r1 r2 h1 h2 heq
    cases l2 with
    | nil =>
      simp only [List.cons_append, List.nil_append, List.cons.injEq] at heq
      exact absurd heq.1 (h1 c (by simp))
    | cons d l2 =>
      simp only [List.cons_append, List.cons.injEq] at heq
      obtain ⟨rfl, htail⟩ := heq
      have := ih l2 r1 r2 (fun x hx => h1 x (by simp [hx])) (fun x hx => h2 x (by simp [hx])) htail
      exact ⟨by rw [this.1], this.2⟩

/-- Two correlation ids built from different counter values are different
strings (the decimal segment and the hex suffix are underscore-free, so the
counter segment of the id is recovered unambiguously). -/
theorem mkRequestId_injective {c1 c2 : Nat} {s1 s2 : String}
    (h1 : suffixOk s1) (h2 : suffixOk s2)
    (heq : mkRequestId c1 s1 = mkRequestId c2 s2) : c1 = c2 := by
  have hdata : ("req_" ++ Nat.repr c1 ++ "_" ++ s1).data = ("req_" ++ Nat.repr c2 ++ "_" ++ s2).data := by
    rw [show ("req_" ++ Nat.repr c1 ++ "_" ++ s1) = mkRequestId c1 s1 from rfl,
      show ("req_" ++ Nat.repr c2 ++ "_" ++ s2) = mkRequestId c2 s2 from rfl, heq]
  simp only [String.data_append] at hdata
  have hstrip : (Nat.repr c1).data ++ "_".data ++ s1.data = (Nat.repr c2).data ++ "_".data ++ s2.data := by
    have : "req_".data ++ ((Nat.repr c1).data ++ "_".data ++ s1.data) =
        "req_".data ++ ((Nat.repr c2).data ++ "_".data ++ s2.data) := by
      simpa [List.append_assoc] using hdata
    exact List.append_cancel_left this
  have hus : "_".data = ['_'] := rfl
  rw [hus] at hstrip
  have hsplit := append_underscore_inj (Nat.repr c1).data (Nat.repr c2).data s1.data s2.data
    (repr_ne_underscore c1) (repr_ne_underscore c2) (by simpa [List.append_assoc] using hstrip)
  have : Nat.repr c1 = Nat.repr c2 := by
    cases hrepr1 : Nat.repr c1
    cases hrepr2 : Nat.repr c2
    simp_all [String.ext_iff, hsplit.1]
  exact repr_injective this

/-! ### Engine state (the Query class of src/internal/query.ts)

A completion handle (the promise pair resolve/reject created inside
`sendControlRequest`) is identified by the value the request counter took
when the request was created; `settled` is the history of handle
settlements, in order.  The correlation table `pendingControlResponses` is
a JavaScript Map in the source: association-list lookup returns the most
recent binding first, and the ids are proven pairwise distinct, so the
list is observationally the Map. -/

/-- The result with which a completion handle is settled. -/
inductive SettleRes where
  | resolved (payload : JVal) : SettleRes
  | rejected (error : String) : SettleRes
deriving Repr

/-- One correlation-table entry: the identity of its completion handle and
the subtype of the outbound request (used by the timeout message). -/
structure PendingControl where
  handle : Nat
  subtype : String
deriving Repr

/-- An item of the delivery queue (AsyncQueue of src/internal/query.ts),
QueueItem with type message, error or end. -/
inductive QueueItem where
  | message (value : JVal) : QueueItem
  | error (e : String) : QueueItem
  | endItem : QueueItem
deriving Repr

/-- The AsyncQueue of src/internal/query.ts, modelled with the producer
and consumer sequentialized: items pushed while no consumer waits are
buffered in FIFO order, and a waiter hand-off delivers the same item the
buffer would, so the buffered list together with the closed flag is the
whole observable state. -/
structure AsyncQueue where
  items : List QueueItem
  closed : Bool
deriving Repr

/-- AsyncQueue.push: dropped when the queue is closed, appended otherwise. -/
def AsyncQueue.push (q : AsyncQueue) (item : QueueItem) : AsyncQueue :=
  if q.closed then q else { q with items := q.items ++ [item] }

/-- AsyncQueue.close: marks the queue closed (pending waiters receive the
end-of-stream item, which the drain model produces from the closed flag). -/
def AsyncQueue.closeQ (q : AsyncQueue) : AsyncQueue :=
  { q with closed := true }

/-- An outbound record written through the transport (the engine writes
each as one JSON line). -/
inductive OutMsg where
  | controlRequest (request_id : String) (subtype : String) (params : List (String × JVal)) : OutMsg
  | controlResponseSuccess (request_id : Option String) (response : JVal) : OutMsg
  | controlResponseError (request_id : Option String) (error : String) : OutMsg
deriving Repr

/-- The mutable state of one Query instance (the fields of the class that
the control protocol touches). -/
structure QueryState where
  isStreamingMode : Bool
  requestCounter : Nat
  pendingControlResponses : List (String × PendingControl)
  settled : List (Nat × SettleRes)
  closed : Bool
  messageQueue : AsyncQueue
  firstResultResolved : Bool
  writes : List OutMsg
deriving Repr

/-- The state of a freshly constructed Query. -/
def initialQueryState (isStreamingMode : Bool) : QueryState :=
  { isStreamingMode := isStreamingMode
    requestCounter := 0
    pendingControlResponses := []
    settled := []
    closed := false
    messageQueue := { items := [], closed := false }
    firstResultResolved := false
    writes := [] }

/-- Query.sendControlRequest (src/internal/query.ts lines 450-476): in
non-streaming mode it throws before touching any state; otherwise it
increments the counter, forms the id from the counter and the random hex
suffix, inserts the pending entry and writes the control_request record.
Returns the new state and the generated id. -/
def sendControlRequest (s : QueryState) (subtype : String) (params : List (String × JVal))
    (suffix : String) : Except String (QueryState × String) :=
  if !s.isStreamingMode then
    .error "Control requests require streaming mode"
  else
    let counter := s.requestCounter + 1
    let requestId := mkRequestId counter suffix
    .ok ({ s with
            requestCounter := counter
            pendingControlResponses :=
              (requestId, { handle := counter, subtype := subtype }) :: s.pendingControlResponses
            writes := s.writes ++ [.controlRequest requestId subtype params] },
         requestId)

/-- Query.interrupt (line 478). -/
def interrupt (s : QueryState) (suffix : String) : Except String (QueryState × String) :=
  sendControlRequest s "interrupt" [] suffix

/-- Query.setPermissionMode (line 482). -/
def setPermissionMode (s : QueryState) (mode : String) (suffix : String) :
    Except String (QueryState × String) :=
  sendControlRequest s "set_permission_mode" [("mode", .str mode)] suffix

/-- Query.setModel (line 486). -/
def setModel (s : QueryState) (model : Option String) (suffix : String) :
    Except String (QueryState × String) :=
  sendControlRequest s "set_model" [("model", match model with | some m => .str m | none => .null)] suffix

/-- Query.rewindFiles (line 490). -/
def rewindFiles (s : QueryState) (userMessageId : String) (suffix : String) :
    Except String (QueryState × String) :=
  sendControlRequest s "rewind_files" [("user_message_id", .str userMessageId)] suffix

/-- Query.handleControlResponse (lines 260-281): extracts
response.request_id; a falsy id (absent or empty) is ignored; an id with
no pending entry is silently discarded; otherwise the timer is cancelled,
the entry removed, and the handle rejected with the carried error (error
subtype) or resolved with the payload (or an empty object when the payload
is not object-like). -/
def handleControlResponse (s : QueryState) (responseData : Option JVal) : QueryState :=
  match responseData.bind (fun rd => jGetStr rd "request_id") with
  | none => s
  | some requestId =>
    if requestId = "" then s
    else
      match s.pendingControlResponses.lookup requestId with
      | none => s
      | some pending =>
        let s :=
          { s with pendingControlResponses :=
              s.pendingControlResponses.eraseP (fun e => e.1 == requestId) }
        if (responseData.bind (fun rd => jGetStr rd "subtype")) = some "error" then
          { s with settled := s.settled ++
              [(pending.handle,
                .rejected (((responseData.bind (fun rd => jGetStr rd "error"))).getD "Unknown error"))] }
        else
          let payload := responseData.bind (fun rd => jGet rd "response")
          { s with settled := s.settled ++
              [(pending.handle,
                .resolved (match payload with
                  | some v => if isObjLike v then v else .obj []
                  | none => .obj []))] }

/-- The expiry of the per-request timer installed by sendControlRequest
(lines 464-471): the timer is live exactly while its entry is in the table
(it is cleared whenever the entry is removed), so a firing timer deletes
the entry and rejects its handle with a timeout error naming the request
subtype. -/
def timeoutFire (s : QueryState) (requestId : String) : QueryState :=
  match s.pendingControlResponses.lookup requestId with
  | none => s
  | some pending =>
    { s with
        pendingControlResponses :=
          s.pendingControlResponses.eraseP (fun e => e.1 == requestId)
        settled := s.settled ++
          [(pending.handle, .rejected ("Control request timeout: " ++ pending.subtype))] }

/-- The catch branch of Query.readMessagesLoop (lines 246-253): every
pending entry has its timer cleared and its handle rejected with the read
failure, the table is emptied, and an error item is pushed for the
consumer. -/
def readLoopCatch (s : QueryState) (e : String) : QueryState :=
  { s with
      pendingControlResponses := []
      settled := s.settled ++
        s.pendingControlResponses.map (fun entry => (entry.2.handle, SettleRes.rejected e))
      messageQueue := s.messageQueue.push (.error e) }

/-- The finally branch of Query.readMessagesLoop (lines 254-257): push the
end item and close the delivery queue. -/
def readLoopFinally (s : QueryState) : QueryState :=
  let s := { s with messageQueue := s.messageQueue.push .endItem }
  { s with messageQueue := s.messageQueue.closeQ }

/-! ### Inbound control-request dispatch (Query.handleControlRequest)

Caller-supplied callbacks are modelled as Lean functions inside a
QueryEnv; a callback that throws is modelled by returning Except.error
with the thrown message, which the dispatcher catch converts into an
error-outcome control_response exactly as the source catch does. -/

/-- A permission rule inside a PermissionUpdate (tool_name,
rule_content). -/
structure PermissionRuleValue where
  tool_name : String
  rule_content : Option String

/-- A PermissionUpdate as passed back by an allow decision
(src/types/index.ts); only the fields serializePermissionUpdate reads. -/
structure PermissionUpdate where
  type : String
  destination : Option String
  rules : Option (List PermissionRuleValue)
  behavior : Option String
  mode : Option String
  directories : Option (List String)

/-- serializePermissionUpdate (src/internal/query.ts lines 91-119). -/
def serializePermissionUpdate (update : PermissionUpdate) : JVal :=
  let base : List (String × JVal) := [("type", .str update.type)]
  let base := base ++
    (match update.destination with
     | some d => [("destination", JVal.str d)]
     | none => [])
  let rest : List (String × JVal) :=
    if update.type = "addRules" ∨ update.type = "replaceRules" ∨ update.type = "removeRules" then
      (match update.rules with
       | some rules =>
         [("rules", JVal.arr (rules.map (fun rule =>
            JVal.obj [("toolName", .str rule.tool_name),
                      ("ruleContent", match rule.rule_content with
                        | some rc => .str rc
                        | none => .null)])))]
       | none => []) ++
      (match update.behavior with
       | some b => [("behavior", JVal.str b)]
       | none => [])
    else if update.type = "setMode" then
      match update.mode with
      | some m => [("mode", JVal.str m)]
      | none => []
    else if update.type = "addDirectories" ∨ update.type = "removeDirectories" then
      match update.directories with
      | some ds => [("directories", JVal.arr (ds.map JVal.str))]
      | none => []
    else []
  .obj (base ++ rest)

/-- The value a permission callback returns: an allow or deny decision,
or anything else (the source checks the behavior field at runtime and
throws a TypeError on any other shape). -/
inductive PermCallbackResult where
  | allow (updated_input : Option JVal) (updated_permissions : Option (List PermissionUpdate)) :
      PermCallbackResult
  | deny (message : Option String) (interrupt : Bool) : PermCallbackResult
  | invalid : PermCallbackResult

/-- An in-process tool: name, description, input schema and handler; a
handler that throws is an Except.error carrying the thrown message
(src/mcp helper SdkMcpTool). -/
structure SdkMcpTool where
  name : String
  description : String
  input_schema : JVal
  handler : JVal → Except String JVal

/-- An in-process tool server instance (class SdkMcpServer). -/
structure SdkMcpServer where
  name : String
  version : String
  tools : List SdkMcpTool

/-- convertInputSchema of the MCP helper, restricted to JSON-valued
schemas (the JS constructor-function cases String/Number/Boolean cannot
occur in a JSON value): a schema that already carries truthy type and
properties fields is passed through, anything that is not an object
becomes an empty object schema, and otherwise each entry is translated to
a typed property descriptor with every key required. -/
def convertInputSchema (input_schema : JVal) : JVal :=
  match input_schema with
  | .obj fields =>
    if (jGet (.obj fields) "type").elim false jTruthy ∧
        (jGet (.obj fields) "properties").elim false jTruthy then
      .obj fields
    else
      let properties := fields.map (fun kv =>
        (kv.1,
         JVal.obj [("type", .str
           (if kv.2.beq (.str "string") then "string"
            else if kv.2.beq (.str "number") ∨ kv.2.beq (.str "float") then "number"
            else if kv.2.beq (.str "boolean") then "boolean"
            else if kv.2.beq (.str "integer") then "integer"
            else "string"))]))
      .obj [("type", .str "object"),
            ("properties", .obj properties),
            ("required", .arr (properties.map (fun p => JVal.str p.1)))]
  | _ => .obj [("type", .str "object"), ("properties", .obj [])]

/-- SdkMcpServer.listTools: the registered tool descriptors. -/
def listTools (server : SdkMcpServer) : List JVal :=
  server.tools.map (fun toolDef =>
    .obj [("name", .str toolDef.name),
          ("description", .str toolDef.description),
          ("inputSchema", convertInputSchema toolDef.input_schema)])

/-- SdkMcpServer.callTool (MCP helper lines 84-109): unknown tool names
throw; a successful handler result has its content array filtered to
text/image items and an is_error flag copied when truthy. -/
def callTool (server : SdkMcpServer) (name : String) (args : JVal) : Except String JVal :=
  match server.tools.find? (fun t => t.name = name) with
  | none => .error ("Tool '" ++ name ++ "' not found")
  | some toolDef =>
    (toolDef.handler args).map (fun result =>
      let content : List JVal :=
        match jGet result "content" with
        | some (.arr items) =>
          items.filterMap (fun item =>
            if jGetStr item "type" = some "text" then
              some (.obj ([("type", JVal.str "text")] ++
                (match jGet item "text" with
                 | some t => [("text", t)]
                 | none => [])))
            else if jGetStr item "type" = some "image" then
              some (.obj ([("type", JVal.str "image")] ++
                (match jGet item "data" with
                 | some d => [("data", d)]
                 | none => []) ++
                (match jGet item "mimeType" with
                 | some m => [("mimeType", m)]
                 | none => [])))
            else none)
        | _ => []
      .obj ([("content", .arr content)] ++
        (if (jGet result "is_error").elim false jTruthy then [("is_error", JVal.bool true)] else [])))

/-- The jsonrpc/id header of a nested JSON-RPC reply; a missing id is
dropped by JSON.stringify, so it is omitted from the object. -/
def jsonrpcHeader (message : JVal) : List (String × JVal) :=
  [("jsonrpc", .str "2.0")] ++
    (match jGet message "id" with
     | some v => [("id", v)]
     | none => [])

/-- Query.handleSdkMcpRequest (src/internal/query.ts lines 379-448). The
server registry holds SdkMcpServer instances (InternalClient stores
config.instance), so the listTools/callTool function guards of the source
are always satisfied. An unknown server or method yields a nested
JSON-RPC error -32601; a throwing tools/call (including an unknown tool
name) yields a nested JSON-RPC error -32603. -/
def handleSdkMcpRequest (servers : List (String × SdkMcpServer)) (serverName : String)
    (message : JVal) : JVal :=
  match servers.lookup serverName with
  | none =>
    .obj (jsonrpcHeader message ++
      [("error", .obj [("code", .num (-32601)),
                       ("message", .str ("Server '" ++ serverName ++ "' not found"))])])
  | some server =>
    let method := jGetStr message "method"
    let params := match jGet message "params" with
      | some .null => JVal.obj []
      | some v => v
      | none => JVal.obj []
    if method = some "initialize" then
      .obj (jsonrpcHeader message ++
        [("result", .obj
          [("protocolVersion", .str "2024-11-05"),
           ("capabilities", .obj [("tools", .obj [])]),
           ("serverInfo", .obj [("name", .str server.name),
                                ("version", .str server.version)])])])
    else if method = some "tools/list" then
      .obj (jsonrpcHeader message ++ [("result", .obj [("tools", .arr (listTools server))])])
    else if method = some "tools/call" then
      let name := (jGetStr params "name").getD ""
      let args := match jGet params "arguments" with
        | some .null => JVal.obj []
        | some v => v
        | none => JVal.obj []
      match callTool server name args with
      | .ok result => .obj (jsonrpcHeader message ++ [("result", result)])
      | .error e =>
        .obj (jsonrpcHeader message ++
          [("error", .obj [("code", .num (-32603)), ("message", .str e)])])
    else if method = some "notifications/initialized" then
      .obj [("jsonrpc", .str "2.0"), ("result", .obj [])]
    else
      .obj (jsonrpcHeader message ++
        [("error", .obj [("code", .num (-32601)),
                         ("message", .str ("Method '" ++ method.getD "undefined" ++ "' not found"))])])

/-- The caller-supplied callback registries of one Query instance.
hookCallbacks is the dictionary built during initialize() keyed by the
generated hook_N ids. -/
structure QueryEnv where
  canUseTool : Option (String → Option JVal → List JVal → PermCallbackResult)
  hookCallbacks : List (String × (Option JVal → Option String → List (String × JVal)))
  sdkMcpServers : List (String × SdkMcpServer)

/-- convertHookOutputForCli (src/internal/query.ts lines 77-89): rebuilds
the output object entry by entry, writing async_ as async and continue_
as continue; JavaScript property assignment overwrites an existing key in
place and appends a new key at the end. -/
def setKey (o : List (String × JVal)) (key : String) (v : JVal) : List (String × JVal) :=
  if o.any (fun p => p.1 = key) then
    o.map (fun p => if p.1 = key then (key, v) else p)
  else
    o ++ [(key, v)]

/-- The normalization applied to a hook callback output before it is
written back. -/
def convertHookOutputForCli (hookOutput : List (String × JVal)) : List (String × JVal) :=
  hookOutput.foldl (fun converted kv =>
    if kv.1 = "async_" then setKey converted "async" kv.2
    else if kv.1 = "continue_" then setKey converted "continue" kv.2
    else setKey converted kv.1 kv.2) []

/-- The body of the try block of Query.handleControlRequest (lines
288-355): either the success responseData or the thrown error message. -/
def handleControlRequestCore (env : QueryEnv) (message : JVal) : Except String JVal :=
  let requestData := (jGet message "request").getD (.obj [])
  let subtype := jGetStr requestData "subtype"
  if subtype = some "can_use_tool" then
    match env.canUseTool with
    | none => .error "canUseTool callback is not provided"
    | some canUseTool =>
      let originalInput := jGet requestData "input"
      let suggestions := match jGet requestData "permission_suggestions" with
        | some (.arr xs) => xs
        | _ => []
      match canUseTool ((jGetStr requestData "tool_name").getD "") originalInput suggestions with
      | .allow updated_input updated_permissions =>
        .ok (.obj ([("behavior", JVal.str "allow")] ++
          (match updated_input.orElse (fun _ => originalInput) with
           | some v => [("updatedInput", v)]
           | none => []) ++
          (match updated_permissions with
           | some ups => [("updatedPermissions", JVal.arr (ups.map serializePermissionUpdate))]
           | none => [])))
      | .deny msg interrupt =>
        .ok (.obj ([("behavior", JVal.str "deny"),
                    ("message", .str (msg.getD ""))] ++
          (if interrupt then [("interrupt", JVal.bool true)] else [])))
      | .invalid => .error "Tool permission callback must return PermissionResult"
  else if subtype = some "hook_callback" then
    let callbackId := (jGetStr requestData "callback_id").getD ""
    match env.hookCallbacks.lookup callbackId with
    | none => .error ("No hook callback found for ID: " ++ callbackId)
    | some callback =>
      let hookOutput := callback (jGet requestData "input") (jGetStr requestData "tool_use_id")
      .ok (.obj (convertHookOutputForCli hookOutput))
  else if subtype = some "mcp_message" then
    let serverName := jGetStr requestData "server_name"
    let mcpMessage := jGet requestData "message"
    match serverName, mcpMessage with
    | some sn, some mm =>
      if sn = "" ∨ jTruthy mm = false then
        .error "Missing server_name or message for MCP request"
      else
        .ok (.obj [("mcp_response", handleSdkMcpRequest env.sdkMcpServers sn mm)])
    | _, _ => .error "Missing server_name or message for MCP request"
  else
    .error ("Unsupported control request subtype: " ++ subtype.getD "undefined")

/-- Query.handleControlRequest (lines 283-377): one control_response is
written back per inbound control_request, success when the dispatch body
returned, error-outcome when it threw; the function itself never throws
into the read loop. -/
def handleControlRequest (env : QueryEnv) (message : JVal) : OutMsg :=
  let requestId := jGetStr message "request_id"
  match handleControlRequestCore env message with
  | .ok responseData => .controlResponseSuccess requestId responseData
  | .error e => .controlResponseError requestId e

/-! ### The read loop, receiveMessages and close -/

/-- One iteration of the for-await body of Query.readMessagesLoop (lines
217-245): classify the record by its type field; control_response records
settle the correlation table, control_request records are dispatched (the
written control_response is appended to the outbound writes),
control_cancel_request records are skipped, and everything else resolves
the first-result promise when its type is result and is pushed into the
delivery queue.  Once closed is set the loop body only breaks, which a
skip models since closed is never unset. -/
def readLoopStep (env : QueryEnv) (s : QueryState) (message : JVal) : QueryState :=
  if s.closed then s
  else
    let messageType := jGetStr message "type"
    if messageType = some "control_response" then
      handleControlResponse s (jGet message "response")
    else if messageType = some "control_request" then
      { s with writes := s.writes ++ [handleControlRequest env message] }
    else if messageType = some "control_cancel_request" then s
    else
      let s :=
        if messageType = some "result" ∧ !s.firstResultResolved then
          { s with firstResultResolved := true }
        else s
      { s with messageQueue := s.messageQueue.push (.message message) }

/-- Query.readMessagesLoop over a complete transport read sequence: the
loop body for every record, then the catch branch when the read sequence
surfaced a transport failure, then the finally branch. -/
def readMessagesLoop (env : QueryEnv) (s : QueryState) (messages : List JVal)
    (exitError : Option String) : QueryState :=
  let s1 := messages.foldl (readLoopStep env) s
  readLoopFinally
    (match exitError with
     | some e => readLoopCatch s1 e
     | none => s1)

/-- Query.close (lines 536-542): set the closed flag, shut the transport
down, and await the read loop, whose tail runs the catch branch only when
the read iteration surfaced a stored exit failure (a plain kill leaves no
exit error, so the loop ends gracefully) and then the finally branch. -/
def closeQuery (s : QueryState) (readExitError : Option String) : QueryState :=
  let s1 := { s with closed := true }
  readLoopFinally
    (match readExitError with
     | some e => readLoopCatch s1 e
     | none => s1)

/-- How one call of Query.receiveMessages ends. -/
inductive DrainEnd where
  | ended : DrainEnd
  | threw (e : String) : DrainEnd
  | blocked : DrainEnd
deriving Repr

/-- Query.receiveMessages (lines 517-530) against a queue state: pull
buffered items in order; an end item stops the iteration, an error item
throws, an empty buffer ends the iteration when the queue is closed and
suspends otherwise.  Returns the yielded values and how the iteration
ended. -/
def receiveMessagesAux : List QueueItem → Bool → (List JVal × DrainEnd)
  | [], closed => ([], if closed then .ended else .blocked)
  | .endItem :: _, _ => ([], .ended)
  | .error e :: _, _ => ([], .threw e)
  | .message v :: rest, closed =>
    let r := receiveMessagesAux rest closed
    (v :: r.1, r.2)

/-- The caller's full iteration of receiveMessages. -/
def receiveMessages (q : AsyncQueue) : List JVal × DrainEnd :=
  receiveMessagesAux q.items q.closed

/-! ### streamInput (lines 494-515)

The calls streamInput makes, in order: one transport write per outbound
item, then, when any hooks or in-process tool servers are configured, the
race of the first-result promise against the fallback timer, then
endInput.  Executing the action list against the two race outcomes shows
when end-of-input is actually declared. -/

/-- The observable actions of one streamInput call. -/
inductive StreamAction where
  | write (v : JVal) : StreamAction
  | awaitFirstResultOrTimeout : StreamAction
  | endInput : StreamAction
deriving Repr

/-- A hook matcher as stored in the constructor-supplied hooks record
(hooks: Record of event name to HookMatcher list; only the presence of
event keys matters to streamInput). -/
structure HookMatcher where
  matcher : Option String
  timeout : Option Nat
deriving Repr

/-- The action sequence of Query.streamInput: writes (none once closed is
set), the guarded race, endInput.  hooks and sdkMcpServers are the
constructor-supplied registries; the guard is exactly
Object.keys(sdkMcpServers).length > 0 || Object.keys(hooks).length > 0. -/
def streamInput (hooks : List (String × List HookMatcher)) (sdkMcpServers : List (String × SdkMcpServer))
    (closed : Bool) (stream : List JVal) : List StreamAction :=
  (if closed then [] else stream.map .write) ++
  (if sdkMcpServers.length > 0 ∨ hooks.length > 0 then [.awaitFirstResultOrTimeout] else []) ++
  [.endInput]

/-- Run a streamInput action list: writes accumulate; the race action
completes only when a result record has been observed or the fallback
timeout elapsed, otherwise execution is still suspended there and
everything after it (in particular endInput) has not happened.  Returns
the performed writes and whether endInput was declared. -/
def runStreamActions (resultObserved timeoutElapsed : Bool) :
    List StreamAction → (List JVal × Bool)
  | [] => ([], false)
  | .write v :: rest =>
    let r := runStreamActions resultObserved timeoutElapsed rest
    (v :: r.1, r.2)
  | .awaitFirstResultOrTimeout :: rest =>
    if resultObserved ∨ timeoutElapsed then runStreamActions resultObserved timeoutElapsed rest
    else ([], false)
  | .endInput :: rest =>
    let r := runStreamActions resultObserved timeoutElapsed rest
    (r.1, true)

/-! ### Transport framing (StdioTransport.processBuffer, stdio.ts 589-620)

The JSON.parse call is an oracle parameter: the framing step only
branches on whether the accumulated text decodes.  exitError stores the
decode-size failure that the transport surfaces on the next use. -/

/-- The trim() applied to each physical line before accumulation
(String.prototype.trim: strip leading and trailing whitespace). -/
def jsTrim (s : String) : String :=
  .mk (((s.data.dropWhile Char.isWhitespace).reverse.dropWhile Char.isWhitespace).reverse)

/-- The accumulation state of the framing layer. -/
structure FrameState where
  jsonBuffer : String
  emitted : List JVal
  exitError : Option String
deriving Repr

/-- One iteration of the processBuffer while loop, applied to one
complete (newline-terminated) physical line: trim it, skip it when empty,
append it to the JSON accumulation buffer, record a decode-size failure
and discard the buffer when the accumulation exceeds the limit, emit the
record and clear the buffer when the accumulation decodes, and otherwise
retain the accumulation for subsequent lines. -/
def processLine (parse : String → Option JVal) (maxBufferSize : Nat)
    (st : FrameState) (rawLine : String) : FrameState :=
  let line := jsTrim rawLine
  if line = "" then st
  else
    let jsonBuffer := st.jsonBuffer ++ line
    if jsonBuffer.length > maxBufferSize then
      { st with
          jsonBuffer := ""
          exitError := some ("Buffer size " ++ toString jsonBuffer.length ++
            " exceeds limit " ++ toString maxBufferSize) }
    else
      match parse jsonBuffer with
      | some data => { st with jsonBuffer := "", emitted := st.emitted ++ [data] }
      | none => { st with jsonBuffer := jsonBuffer }

/-- processBuffer over a chunk: every complete line of the byte buffer is
processed in order; the text after the last newline stays in the byte
buffer. -/
def processBuffer (parse : String → Option JVal) (maxBufferSize : Nat)
    (st : FrameState) (buffer : String) : FrameState × String :=
  let parts := buffer.splitOn "\n"
  (parts.dropLast.foldl (processLine parse maxBufferSize) st, parts.getLastD "")

/-! ### Event traces for the correlation-table claims

A trace interleaves the operations that touch the correlation table: an
outbound send (with the random hex suffix the id generator drew), one
read-loop record, one per-request timer expiry, and a read failure. -/

/-- One scheduler step of the engine. -/
inductive EngineEvent where
  | send (subtype : String) (params : List (String × JVal)) (suffix : String) : EngineEvent
  | recv (message : JVal) : EngineEvent
  | timerFire (requestId : String) : EngineEvent
  | readFail (e : String) : EngineEvent

/-- Apply one event to the engine state (a send that throws in
non-streaming mode leaves the state unchanged). -/
def runEvent (env : QueryEnv) (s : QueryState) : EngineEvent → QueryState
  | .send subtype params suffix =>
    match sendControlRequest s subtype params suffix with
    | .ok (s1, _) => s1
    | .error _ => s
  | .recv message => readLoopStep env s message
  | .timerFire requestId => timeoutFire s requestId
  | .readFail e => readLoopFinally (readLoopCatch s e)

/-- Run a trace of events from a state. -/
def runTrace (env : QueryEnv) (s : QueryState) (tr : List EngineEvent) : QueryState :=
  tr.foldl (runEvent env) s

/-- The hex suffix a send event draws never contains an underscore. -/
def eventSuffixOk : EngineEvent → Prop
  | .send _ _ suffix => suffixOk suffix
  | _ => True

instance : DecidablePred eventSuffixOk := fun e => by
  cases e <;> (unfold eventSuffixOk; infer_instance)

/-- Every suffix drawn along a trace is underscore-free. -/
def traceSuffixOk (tr : List EngineEvent) : Prop :=
  ∀ e ∈ tr, eventSuffixOk e

instance (tr : List EngineEvent) : Decidable (traceSuffixOk tr) := by
  unfold traceSuffixOk; infer_instance

/-! ## Claim theorems -/

/-- C10: on an engine constructed in non-streaming mode, interrupt,
setPermissionMode, setModel and rewindFiles all reject with the error
"Control requests require streaming mode", and the guard throws before
the counter is incremented, an entry is inserted or a record is written,
so the state is unchanged. -/
theorem C10_nonstreaming_rejects (s : QueryState) (env : QueryEnv) (mode : String)
    (model : Option String) (userMessageId : String) (suffix : String)
    (h : s.isStreamingMode = false) :
    interrupt s suffix = .error "Control requests require streaming mode" ∧
    setPermissionMode s mode suffix = .error "Control requests require streaming mode" ∧
    setModel s model suffix = .error "Control requests require streaming mode" ∧
    rewindFiles s userMessageId suffix = .error "Control requests require streaming mode" ∧
    (∀ subtype params, runEvent env s (.send subtype params suffix) = s) := by
  refine ⟨?_, ?_, ?_, ?_, ?_⟩ <;>
    simp [interrupt, setPermissionMode, setModel, rewindFiles, sendControlRequest, runEvent, h]

/-- Witness for C10 at a concrete non-streaming engine. -/
theorem C10_nonstreaming_rejects_witness :
    interrupt (initialQueryState false) "ab12cd34" =
      .error "Control requests require streaming mode" ∧
    setPermissionMode (initialQueryState false) "plan" "ab12cd34" =
      .error "Control requests require streaming mode" ∧
    setModel (initialQueryState false) (some "m") "ab12cd34" =
      .error "Control requests require streaming mode" ∧
    rewindFiles (initialQueryState false) "u1" "ab12cd34" =
      .error "Control requests require streaming mode" ∧
    (∀ subtype params,
      runEvent { canUseTool := none, hookCallbacks := [], sdkMcpServers := [] }
        (initialQueryState false) (.send subtype params "ab12cd34") = initialQueryState false) :=
  C10_nonstreaming_rejects (initialQueryState false)
    { canUseTool := none, hookCallbacks := [], sdkMcpServers := [] }
    "plan" (some "m") "u1" "ab12cd34" rfl

/-- C5: an inbound can_use_tool control_request while no permission
callback is registered produces an error-outcome control_response with an
explanatory message; the dispatcher returns it as a value (it cannot hang
or throw into the read loop), and the read loop just records the written
response and continues. -/
theorem C5_can_use_tool_without_callback (env : QueryEnv) (message rd : JVal)
    (hreq : jGet message "request" = some rd)
    (hsub : jGetStr rd "subtype" = some "can_use_tool")
    (hcb : env.canUseTool = none) :
    handleControlRequest env message =
      .controlResponseError (jGetStr message "request_id") "canUseTool callback is not provided" ∧
    (∀ s : QueryState, s.closed = false → jGetStr message "type" = some "control_request" →
      readLoopStep env s message =
        { s with writes := s.writes ++
            [.controlResponseError (jGetStr message "request_id")
              "canUseTool callback is not provided"] }) := by
  have hcore : handleControlRequestCore env message = .error "canUseTool callback is not provided" := by
    unfold handleControlRequestCore
    rw [hreq]
    simp [hsub, hcb]
  constructor
  · unfold handleControlRequest
    rw [hcore]
  · intro s hclosed htype
    unfold readLoopStep
    rw [hclosed, htype]
    simp [handleControlRequest, hcore]

/-- Witness for C5 at a concrete inbound record. -/
theorem C5_can_use_tool_without_callback_witness :
    handleControlRequest { canUseTool := none, hookCallbacks := [], sdkMcpServers := [] }
      (.obj [("type", .str "control_request"), ("request_id", .str "R1"),
             ("request", .obj [("subtype", .str "can_use_tool"),
                               ("tool_name", .str "Bash"),
                               ("input", .obj [])])]) =
      .controlResponseError
        (jGetStr (.obj [("type", .str "control_request"), ("request_id", .str "R1"),
             ("request", .obj [("subtype", .str "can_use_tool"),
                               ("tool_name", .str "Bash"),
                               ("input", .obj [])])]) "request_id")
        "canUseTool callback is not provided" ∧
    (∀ s : QueryState, s.closed = false →
      jGetStr (.obj [("type", .str "control_request"), ("request_id", .str "R1"),
             ("request", .obj [("subtype", .str "can_use_tool"),
                               ("tool_name", .str "Bash"),
                               ("input", .obj [])])]) "type" = some "control_request" →
      readLoopStep { canUseTool := none, hookCallbacks := [], sdkMcpServers := [] } s
        (.obj [("type", .str "control_request"), ("request_id", .str "R1"),
             ("request", .obj [("subtype", .str "can_use_tool"),
                               ("tool_name", .str "Bash"),
                               ("input", .obj [])])]) =
        { s with writes := s.writes ++
            [.controlResponseError
              (jGetStr (.obj [("type", .str "control_request"), ("request_id", .str "R1"),
                 ("request", .obj [("subtype", .str "can_use_tool"),
                                   ("tool_name", .str "Bash"),
                                   ("input", .obj [])])]) "request_id")
              "canUseTool callback is not provided"] }) :=
  C5_can_use_tool_without_callback
    { canUseTool := none, hookCallbacks := [], sdkMcpServers := [] }
    _ _ rfl rfl rfl

/-- The engine state after one interrupt request has been sent from a
fresh streaming engine with the hex suffix abcd0123 (used to exhibit the
close() behaviour with one pending request). -/
def onePendingState : QueryState :=
  { isStreamingMode := true
    requestCounter := 1
    pendingControlResponses := [("req_1_abcd0123", { handle := 1, subtype := "interrupt" })]
    settled := []
    closed := false
    messageQueue := { items := [], closed := false }
    firstResultResolved := false
    writes := [.controlRequest "req_1_abcd0123" "interrupt" []] }

/-- C2 counterexample: an engine with one pending outbound request is
closed while the transport read loop ends without a stored exit failure
(the normal kill path); close() returns with the delivery queue closed
but with the pending request neither resolved nor rejected — it is still
in the correlation table, so the claim that all pending requests are
rejected before close() returns fails at N = 1. -/
theorem C2_close_counterexample :
    interrupt (initialQueryState true) "abcd0123" = .ok (onePendingState, "req_1_abcd0123") ∧
    onePendingState.pendingControlResponses.length = 1 ∧
    (closeQuery onePendingState none).settled = [] ∧
    (closeQuery onePendingState none).pendingControlResponses =
      onePendingState.pendingControlResponses ∧
    (closeQuery onePendingState none).messageQueue.closed = true :=
  ⟨rfl, rfl, rfl, rfl, rfl⟩

/-- C2 amended: close() marks the engine closed, shuts the transport down,
awaits the read loop and closes the Delivery Queue; the N pending
outbound requests are all rejected before close() returns only when the
read iteration surfaced a transport failure (the catch path), and
otherwise they stay pending, left to their individual timeouts. -/
theorem C2_close_amended (s : QueryState) (e : String) :
    ((closeQuery s none).pendingControlResponses = s.pendingControlResponses ∧
     (closeQuery s none).settled = s.settled ∧
     (closeQuery s none).closed = true ∧
     (closeQuery s none).messageQueue.closed = true) ∧
    ((closeQuery s (some e)).pendingControlResponses = [] ∧
     (closeQuery s (some e)).settled = s.settled ++
       s.pendingControlResponses.map (fun entry => (entry.2.handle, SettleRes.rejected e)) ∧
     (closeQuery s (some e)).closed = true ∧
     (closeQuery s (some e)).messageQueue.closed = true) := by
  refine ⟨⟨?_, ?_, ?_, ?_⟩, ⟨?_, ?_, ?_, ?_⟩⟩ <;>
    simp [closeQuery, readLoopFinally, readLoopCatch, AsyncQueue.push, AsyncQueue.closeQ]

/-- C3 counterexample: an inbound mcp_message carrying a tools/call for a
tool that is not registered on the addressed server produces a successful
control_response whose nested JSON-RPC error has code -32603 (the unknown
tool name surfaces as a thrown error from callTool, caught by the
dispatcher catch), not -32601 as claimed. -/
theorem C3_unregistered_tool_counterexample :
    handleControlRequest
      { canUseTool := none, hookCallbacks := [],
        sdkMcpServers := [("srv", { name := "srv", version := "1.0.0", tools := [] })] }
      (.obj [("type", .str "control_request"), ("request_id", .str "A"),
             ("request", .obj [("subtype", .str "mcp_message"), ("server_name", .str "srv"),
                               ("message", .obj [("jsonrpc", .str "2.0"), ("id", .num 1),
                                                 ("method", .str "tools/call"),
                                                 ("params", .obj [("name", .str "missing_tool")])])])]) =
      .controlResponseSuccess (some "A")
        (.obj [("mcp_response", .obj [("jsonrpc", .str "2.0"), ("id", .num 1),
           ("error", .obj [("code", .num (-32603)),
                           ("message", .str "Tool 'missing_tool' not found")])])]) ∧
    (-32603 : Int) ≠ (-32601 : Int) :=
  ⟨rfl, by decide⟩

/-- C3 amended: an inbound mcp_message whose nested message is a
tools/call naming a tool that is not registered on the addressed server
produces a control_response with success outcome whose nested payload is
a JSON-RPC error object with code -32603 and the message naming the
missing tool. -/
theorem C3_unregistered_tool_amended (env : QueryEnv) (message rd mm params : JVal)
    (sn toolName : String) (server : SdkMcpServer)
    (hreq : jGet message "request" = some rd)
    (hsub : jGetStr rd "subtype" = some "mcp_message")
    (hsn : jGetStr rd "server_name" = some sn) (hsne : sn ≠ "")
    (hmm : jGet rd "message" = some mm) (hmt : jTruthy mm = true)
    (hsrv : env.sdkMcpServers.lookup sn = some server)
    (hmethod : jGetStr mm "method" = some "tools/call")
    (hparams : (match jGet mm "params" with
                | some .null => JVal.obj []
                | some v => v
                | none => JVal.obj []) = params)
    (hname : (jGetStr params "name").getD "" = toolName)
    (htool : server.tools.find? (fun t => t.name = toolName) = none) :
    handleControlRequest env message =
      .controlResponseSuccess (jGetStr message "request_id")
        (.obj [("mcp_response", .obj (jsonrpcHeader mm ++
          [("error", .obj [("code", .num (-32603)),
                           ("message", .str ("Tool '" ++ toolName ++ "' not found"))])]))]) := by
  have hcall : callTool server toolName (match jGet params "arguments" with
      | some .null => JVal.obj []
      | some v => v
      | none => JVal.obj []) = .error ("Tool '" ++ toolName ++ "' not found") := by
    unfold callTool
    rw [htool]
  have hmcp : handleSdkMcpRequest env.sdkMcpServers sn mm =
      .obj (jsonrpcHeader mm ++
        [("error", .obj [("code", .num (-32603)),
                         ("message", .str ("Tool '" ++ toolName ++ "' not found"))])]) := by
    unfold handleSdkMcpRequest
    rw [hsrv]
    simp only [hmethod, hparams]
    simp [hname, hcall]
  have hcore : handleControlRequestCore env message =
      .ok (.obj [("mcp_response", .obj (jsonrpcHeader mm ++
        [("error", .obj [("code", .num (-32603)),
                         ("message", .str ("Tool '" ++ toolName ++ "' not found"))])]))]) := by
    unfold handleControlRequestCore
    rw [hreq]
    simp only [Option.getD_some]
    rw [if_neg (by simp [hsub]), if_neg (by simp [hsub]), if_pos (by simp [hsub])]
    rw [hsn, hmm]
    simp [hsne, hmt, hmcp]
  unfold handleControlRequest
  rw [hcore]

/-- Witness for the amended C3 at a concrete server and request. -/
theorem C3_unregistered_tool_amended_witness :
    handleControlRequest
      { canUseTool := none, hookCallbacks := [],
        sdkMcpServers := [("calc", { name := "calc", version := "2.0.0", tools := [] })] }
      (.obj [("type", .str "control_request"), ("request_id", .str "B"),
             ("request", .obj [("subtype", .str "mcp_message"), ("server_name", .str "calc"),
                               ("message", .obj [("jsonrpc", .str "2.0"), ("id", .num 7),
                                                 ("method", .str "tools/call"),
                                                 ("params", .obj [("name", .str "add")])])])]) =
      .controlResponseSuccess (some "B")
        (.obj [("mcp_response", .obj [("jsonrpc", .str "2.0"), ("id", .num 7),
           ("error", .obj [("code", .num (-32603)),
                           ("message", .str "Tool 'add' not found")])])]) := by
  have h := C3_unregistered_tool_amended
    { canUseTool := none, hookCallbacks := [],
      sdkMcpServers := [("calc", { name := "calc", version := "2.0.0", tools := [] })] }
    (.obj [("type", .str "control_request"), ("request_id", .str "B"),
           ("request", .obj [("subtype", .str "mcp_message"), ("server_name", .str "calc"),
                             ("message", .obj [("jsonrpc", .str "2.0"), ("id", .num 7),
                                               ("method", .str "tools/call"),
                                               ("params", .obj [("name", .str "add")])])])])
    (.obj [("subtype", .str "mcp_message"), ("server_name", .str "calc"),
           ("message", .obj [("jsonrpc", .str "2.0"), ("id", .num 7),
                             ("method", .str "tools/call"),
                             ("params", .obj [("name", .str "add")])])])
    (.obj [("jsonrpc", .str "2.0"), ("id", .num 7),
           ("method", .str "tools/call"), ("params", .obj [("name", .str "add")])])
    (.obj [("name", .str "add")])
    "calc" "add" { name := "calc", version := "2.0.0", tools := [] }
    rfl rfl rfl (by decide) rfl rfl rfl rfl rfl rfl rfl
  exact h

theorem runStreamActions_writes (resultObserved timeoutElapsed : Bool) (l : List JVal)
    (rest : List StreamAction) :
    runStreamActions resultObserved timeoutElapsed (l.map .write ++ rest) =
      (l ++ (runStreamActions resultObserved timeoutElapsed rest).1,
       (runStreamActions resultObserved timeoutElapsed rest).2) := by
  induction l with
  | nil => simp
  | cons v l ih => simp [runStreamActions, ih]

/-- C7: with at least one hook or in-process tool server configured,
streamInput performs all outbound writes and then does not declare
end-of-input while neither a terminal result record has been observed nor
the fallback timeout has elapsed; once either has happened the race
completes and end-of-input is declared.  With no hooks and no tool
servers the action sequence is the writes followed immediately by
end-of-input, declared unconditionally. -/
theorem C7_stream_input_end_of_input (hooks : List (String × List HookMatcher))
    (sdkMcpServers : List (String × SdkMcpServer)) (stream : List JVal)
    (resultObserved timeoutElapsed : Bool)
    (hcfg : hooks ≠ [] ∨ sdkMcpServers ≠ []) :
    streamInput hooks sdkMcpServers false stream =
      stream.map .write ++ [.awaitFirstResultOrTimeout, .endInput] ∧
    (resultObserved = false → timeoutElapsed = false →
      runStreamActions resultObserved timeoutElapsed
        (streamInput hooks sdkMcpServers false stream) = (stream, false)) ∧
    (resultObserved = true ∨ timeoutElapsed = true →
      runStreamActions resultObserved timeoutElapsed
        (streamInput hooks sdkMcpServers false stream) = (stream, true)) := by
  have hguard : sdkMcpServers.length > 0 ∨ hooks.length > 0 := by
    rcases hcfg with h | h
    · right
      simpa [List.length_pos] using h
    · left
      simpa [List.length_pos] using h
  have hstream : streamInput hooks sdkMcpServers false stream =
      stream.map .write ++ [.awaitFirstResultOrTimeout, .endInput] := by
    unfold streamInput
    rw [if_neg (by simp), if_pos hguard]
    simp
  refine ⟨hstream, ?_, ?_⟩
  · intro hres htime
    rw [hstream, runStreamActions_writes]
    simp [runStreamActions, hres, htime]
  · intro hdisj
    rcases hdisj with h | h <;>
      · rw [hstream, runStreamActions_writes]
        simp [runStreamActions, h]

/-- Witness for C7 at a concrete configuration with one hook event. -/
theorem C7_stream_input_end_of_input_witness :
    (streamInput [("PreToolUse", [{ matcher := none, timeout := none }])] []
        false [.obj [("type", .str "user")]] =
      [StreamAction.write (.obj [("type", .str "user")]), .awaitFirstResultOrTimeout, .endInput]) ∧
    runStreamActions false false
      (streamInput [("PreToolUse", [{ matcher := none, timeout := none }])] []
        false [.obj [("type", .str "user")]]) =
      ([.obj [("type", .str "user")]], false) ∧
    runStreamActions true false
      (streamInput [("PreToolUse", [{ matcher := none, timeout := none }])] []
        false [.obj [("type", .str "user")]]) =
      ([.obj [("type", .str "user")]], true) := by
  have h := C7_stream_input_end_of_input
    [("PreToolUse", [{ matcher := none, timeout := none }])] [] [.obj [("type", .str "user")]]
    false false (by left; simp)
  have h2 := C7_stream_input_end_of_input
    [("PreToolUse", [{ matcher := none, timeout := none }])] [] [.obj [("type", .str "user")]]
    true false (by left; simp)
  exact ⟨h.1, h.2.1 rfl rfl, h2.2.2 (Or.inl rfl)⟩

/-- C7 immediate end-of-input half: with no hooks and no tool servers the
action list of streamInput is the writes followed directly by endInput
(no race), and running it declares end-of-input regardless of the race
inputs; stated together with the main C7 theorem this is packaged as its
own lemma only to keep the statement readable. -/
theorem streamInput_no_hooks_immediate (stream : List JVal)
    (resultObserved timeoutElapsed : Bool) :
    streamInput [] [] false stream = stream.map .write ++ [.endInput] ∧
    runStreamActions resultObserved timeoutElapsed (streamInput [] [] false stream) =
      (stream, true) := by
  have hstream : streamInput [] [] false stream = stream.map .write ++ [.endInput] := by
    unfold streamInput
    simp
  refine ⟨hstream, ?_⟩
  rw [hstream, runStreamActions_writes]
  simp [runStreamActions]

/-- C8: the framing step of StdioTransport.processBuffer on one physical
line: an accumulation that exceeds the limit records a decode-size
failure and discards the accumulated buffer; an accumulation that fails
to decode is retained, and a subsequent line is appended to it so a
record may span several physical lines (the fourth conjunct shows the
two-line emission); an accumulation that decodes is emitted and the
buffer is cleared. -/
theorem C8_framing_step (parse : String → Option JVal) (maxBufferSize : Nat)
    (st : FrameState) (rawLine : String) (hne : jsTrim rawLine ≠ "") :
    ((st.jsonBuffer ++ jsTrim rawLine).length > maxBufferSize →
      processLine parse maxBufferSize st rawLine =
        { st with jsonBuffer := ""
                  exitError := some ("Buffer size " ++ toString (st.jsonBuffer ++ jsTrim rawLine).length ++
                    " exceeds limit " ++ toString maxBufferSize) }) ∧
    ((st.jsonBuffer ++ jsTrim rawLine).length ≤ maxBufferSize →
      parse (st.jsonBuffer ++ jsTrim rawLine) = none →
      processLine parse maxBufferSize st rawLine =
        { st with jsonBuffer := st.jsonBuffer ++ jsTrim rawLine }) ∧
    (∀ data, (st.jsonBuffer ++ jsTrim rawLine).length ≤ maxBufferSize →
      parse (st.jsonBuffer ++ jsTrim rawLine) = some data →
      processLine parse maxBufferSize st rawLine =
        { st with jsonBuffer := "", emitted := st.emitted ++ [data] }) ∧
    (∀ line2 data, (st.jsonBuffer ++ jsTrim rawLine).length ≤ maxBufferSize →
      parse (st.jsonBuffer ++ jsTrim rawLine) = none →
      jsTrim line2 ≠ "" →
      (st.jsonBuffer ++ jsTrim rawLine ++ jsTrim line2).length ≤ maxBufferSize →
      parse (st.jsonBuffer ++ jsTrim rawLine ++ jsTrim line2) = some data →
      processLine parse maxBufferSize (processLine parse maxBufferSize st rawLine) line2 =
        { st with jsonBuffer := "", emitted := st.emitted ++ [data] }) := by
  refine ⟨?_, ?_, ?_, ?_⟩
  · intro hover
    unfold processLine
    rw [if_neg hne, if_pos (by omega)]
  · intro hle hnone
    unfold processLine
    rw [if_neg hne, if_neg (by omega), hnone]
  · intro data hle hsome
    unfold processLine
    rw [if_neg hne, if_neg (by omega), hsome]
  · intro line2 data hle hnone hne2 hle2 hsome2
    have h1 : processLine parse maxBufferSize st rawLine =
        { st with jsonBuffer := st.jsonBuffer ++ jsTrim rawLine } := by
      unfold processLine
      rw [if_neg hne, if_neg (by omega), hnone]
    rw [h1]
    unfold processLine
    have hproj : ({ st with jsonBuffer := st.jsonBuffer ++ jsTrim rawLine } : FrameState).jsonBuffer =
        st.jsonBuffer ++ jsTrim rawLine := rfl
    rw [hproj, if_neg hne2, if_neg (by omega), hsome2]

/-- The key translation convertHookOutputForCli performs entrywise. -/
def renameKey (k : String) : String :=
  if k = "async_" then "async" else if k = "continue_" then "continue" else k

theorem convert_step (conv : List (String × JVal)) (kv : String × JVal) :
    (if kv.1 = "async_" then setKey conv "async" kv.2
     else if kv.1 = "continue_" then setKey conv "continue" kv.2
     else setKey conv kv.1 kv.2) = setKey conv (renameKey kv.1) kv.2 := by
  by_cases h1 : kv.1 = "async_" <;> by_cases h2 : kv.1 = "continue_" <;>
    simp [renameKey, h1, h2]

theorem convertHookOutputForCli_eq_foldl (o : List (String × JVal)) :
    convertHookOutputForCli o =
      o.foldl (fun conv kv => setKey conv (renameKey kv.1) kv.2) [] := by
  unfold convertHookOutputForCli
  congr 1
  funext conv kv
  exact convert_step conv kv

theorem setKey_not_mem (o : List (String × JVal)) (k : String) (v : JVal)
    (h : k ∉ o.map Prod.fst) : setKey o k v = o ++ [(k, v)] := by
  unfold setKey
  rw [if_neg]
  simp only [List.any_eq_true, not_exists, not_and]
  intro p hp
  intro hcontra
  exact h (List.mem_map.mpr ⟨p, hp, of_decide_eq_true hcontra⟩)

theorem foldl_setKey_append (o : List (String × JVal)) :
    ∀ acc : List (String × JVal),
      (∀ p ∈ o, renameKey p.1 ∉ acc.map Prod.fst) →
      (o.map (fun p => renameKey p.1)).Nodup →
      o.foldl (fun conv kv => setKey conv (renameKey kv.1) kv.2) acc =
        acc ++ o.map (fun p => (renameKey p.1, p.2)) := by
  induction o with
  | nil => intro acc _ _; simp
  | cons p rest ih =>
    intro acc hdisj hnodup
    simp only [List.foldl_cons]
    rw [setKey_not_mem acc (renameKey p.1) p.2 (hdisj p (by simp))]
    rw [ih (acc ++ [(renameKey p.1, p.2)]) ?_ ?_]
    · simp
    · intro q hq
      simp only [List.map_append, List.mem_append]
      rintro (hin | hin)
      · exact hdisj q (by simp [hq]) hin
      · simp only [List.map_cons, List.nodup_cons] at hnodup
        simp only [List.map_cons, List.mem_singleton] at hin
        have : renameKey q.1 = renameKey p.1 := by simpa using hin
        exact hnodup.1 (this ▸ List.mem_map.mpr ⟨q, hq, rfl⟩)
    · simp only [List.map_cons, List.nodup_cons] at hnodup
      exact hnodup.2

theorem convertHookOutputForCli_as_map (o : List (String × JVal))
    (hnodup : (o.map (fun p => renameKey p.1)).Nodup) :
    convertHookOutputForCli o = o.map (fun p => (renameKey p.1, p.2)) := by
  rw [convertHookOutputForCli_eq_foldl]
  simpa using foldl_setKey_append o [] (by simp) hnodup

theorem lookup_renamed_other (o : List (String × JVal)) (k : String)
    (hk1 : k ≠ "async") (hk2 : k ≠ "continue")
    (hk3 : k ≠ "async_") (hk4 : k ≠ "continue_") :
    (o.map (fun p => (renameKey p.1, p.2))).lookup k = o.lookup k := by
  induction o with
  | nil => rfl
  | cons p rest ih =>
    simp only [List.map_cons, List.lookup]
    have hbk : (k == renameKey p.1) = (k == p.1) := by
      unfold renameKey
      by_cases h1 : p.1 = "async_"
      · rw [if_pos h1, h1, beq_eq_false_iff_ne.mpr hk1, beq_eq_false_iff_ne.mpr hk3]
      · rw [if_neg h1]
        by_cases h2 : p.1 = "continue_"
        · rw [if_pos h2, h2, beq_eq_false_iff_ne.mpr hk2, beq_eq_false_iff_ne.mpr hk4]
        · rw [if_neg h2]
    rw [hbk]
    by_cases hmatch : k == p.1
    · simp [hmatch]
    · simp only [hmatch]
      exact ih

theorem lookup_renamed_async (o : List (String × JVal))
    (ha : "async" ∉ o.map Prod.fst) :
    (o.map (fun p => (renameKey p.1, p.2))).lookup "async" = o.lookup "async_" := by
  induction o with
  | nil => rfl
  | cons p rest ih =>
    have hp : p.1 ≠ "async" := by
      intro hcontra
      exact ha (by simp [hcontra])
    have ha2 : "async" ∉ rest.map Prod.fst := by
      intro hcontra
      exact ha (by simp [hcontra])
    simp only [List.map_cons, List.lookup]
    by_cases h1 : p.1 = "async_"
    · have : renameKey p.1 = "async" := by simp [renameKey, h1]
      rw [this, h1]
      simp
    · have hne : ("async" == renameKey p.1) = false := by
        unfold renameKey
        by_cases h2 : p.1 = "continue_" <;> simp [h1, h2] <;> exact fun h => hp h.symm
      have hne2 : ("async_" == p.1) = false := by
        simp
        exact fun h => h1 h.symm
      rw [hne, hne2]
      exact ih ha2

theorem lookup_renamed_continue (o : List (String × JVal))
    (hc : "continue" ∉ o.map Prod.fst) :
    (o.map (fun p => (renameKey p.1, p.2))).lookup "continue" = o.lookup "continue_" := by
  induction o with
  | nil => rfl
  | cons p rest ih =>
    have hp : p.1 ≠ "continue" := by
      intro hcontra
      exact hc (by simp [hcontra])
    have hc2 : "continue" ∉ rest.map Prod.fst := by
      intro hcontra
      exact hc (by simp [hcontra])
    simp only [List.map_cons, List.lookup]
    by_cases h1 : p.1 = "continue_"
    · have : renameKey p.1 = "continue" := by simp [renameKey, h1]
      rw [this, h1]
      simp
    · have hne : ("continue" == renameKey p.1) = false := by
        unfold renameKey
        by_cases h2 : p.1 = "async_" <;> simp [h1, h2] <;> exact fun h => hp h.symm
      have hne2 : ("continue_" == p.1) = false := by
        simp
        exact fun h => h1 h.symm
      rw [hne, hne2]
      exact ih hc2

theorem lookup_renamed_source_gone (o : List (String × JVal)) :
    (o.map (fun p => (renameKey p.1, p.2))).lookup "async_" = none ∧
    (o.map (fun p => (renameKey p.1, p.2))).lookup "continue_" = none := by
  induction o with
  | nil => exact ⟨rfl, rfl⟩
  | cons p rest ih =>
    have h1 : ("async_" == renameKey p.1) = false := by
      unfold renameKey
      by_cases ha : p.1 = "async_" <;> by_cases hb : p.1 = "continue_" <;> simp [ha, hb] <;>
        exact fun h => (by assumption : ¬ p.1 = "async_") h.symm
    have h2 : ("continue_" == renameKey p.1) = false := by
      unfold renameKey
      by_cases ha : p.1 = "async_" <;> by_cases hb : p.1 = "continue_" <;> simp [ha, hb] <;>
        exact fun h => (by assumption : ¬ p.1 = "continue_") h.symm
    simp only [List.map_cons, List.lookup, h1, h2]
    exact ih

theorem renamed_keys_nodup (o : List (String × JVal))
    (hkeys : (o.map Prod.fst).Nodup)
    (ha : "async" ∉ o.map Prod.fst) (hc : "continue" ∉ o.map Prod.fst) :
    (o.map (fun p => renameKey p.1)).Nodup := by
  have hinj : ∀ x ∈ o.map Prod.fst, ∀ y ∈ o.map Prod.fst, renameKey x = renameKey y → x = y := by
    intro x hx y hy hxy
    have hxa : x ≠ "async" := fun h => ha (h ▸ hx)
    have hxc : x ≠ "continue" := fun h => hc (h ▸ hx)
    have hya : y ≠ "async" := fun h => ha (h ▸ hy)
    have hyc : y ≠ "continue" := fun h => hc (h ▸ hy)
    unfold renameKey at hxy
    by_cases h1 : x = "async_" <;> by_cases h2 : x = "continue_" <;>
      by_cases h3 : y = "async_" <;> by_cases h4 : y = "continue_" <;>
      simp [h1, h2, h3, h4] at hxy ⊢ <;> simp_all
  have hmapped := List.Nodup.map_on hinj hkeys
  rw [List.map_map] at hmapped
  exact hmapped

/-- C9 counterexample: a hook output object that already holds an async
key next to an async_ key; the rename overwrites the async entry, so the
normalized object disagrees with the input at the key async, which is not
one of the two renamed keys — the claim fails on this object. -/
theorem C9_hook_output_counterexample :
    convertHookOutputForCli [("async", .num 1), ("async_", .num 2)] = [("async", .num 2)] ∧
    List.lookup "async" [("async", JVal.num 1), ("async_", JVal.num 2)] = some (.num 1) ∧
    (convertHookOutputForCli [("async", .num 1), ("async_", .num 2)]).lookup "async" =
      some (.num 2) ∧
    "async" ≠ "async_" ∧ "async" ≠ "continue_" :=
  ⟨rfl, rfl, rfl, by decide, by decide⟩

/-- C9 amended: for hook output objects that do not already carry an
async or continue key, the normalization maps async_ to async and
continue_ to continue and maps every other key to itself with its value
unchanged; the normalized object agrees with the input on all keys other
than the four involved in the renames, the renamed source keys are gone,
and the rename targets carry the source values. -/
theorem C9_hook_output_amended (o : List (String × JVal))
    (hkeys : (o.map Prod.fst).Nodup)
    (ha : "async" ∉ o.map Prod.fst) (hc : "continue" ∉ o.map Prod.fst) :
    convertHookOutputForCli o = o.map (fun p => (renameKey p.1, p.2)) ∧
    (∀ k, k ≠ "async" → k ≠ "continue" → k ≠ "async_" → k ≠ "continue_" →
      (convertHookOutputForCli o).lookup k = o.lookup k) ∧
    (convertHookOutputForCli o).lookup "async" = o.lookup "async_" ∧
    (convertHookOutputForCli o).lookup "continue" = o.lookup "continue_" ∧
    (convertHookOutputForCli o).lookup "async_" = none ∧
    (convertHookOutputForCli o).lookup "continue_" = none := by
  have hnodup := renamed_keys_nodup o hkeys ha hc
  have hmap := convertHookOutputForCli_as_map o hnodup
  refine ⟨hmap, ?_, ?_, ?_, ?_, ?_⟩
  · intro k hk1 hk2 hk3 hk4
    rw [hmap]
    exact lookup_renamed_other o k hk1 hk2 hk3 hk4
  · rw [hmap]
    exact lookup_renamed_async o ha
  · rw [hmap]
    exact lookup_renamed_continue o hc
  · rw [hmap]
    exact (lookup_renamed_source_gone o).1
  · rw [hmap]
    exact (lookup_renamed_source_gone o).2

/-- Witness for the amended C9 at a concrete hook output. -/
theorem C9_hook_output_amended_witness :
    convertHookOutputForCli [("continue_", .bool false), ("decision", .str "block")] =
      [("continue", JVal.bool false), ("decision", JVal.str "block")] ∧
    (∀ k, k ≠ "async" → k ≠ "continue" → k ≠ "async_" → k ≠ "continue_" →
      (convertHookOutputForCli [("continue_", .bool false), ("decision", .str "block")]).lookup k =
        List.lookup k [("continue_", JVal.bool false), ("decision", JVal.str "block")]) ∧
    (convertHookOutputForCli [("continue_", .bool false), ("decision", .str "block")]).lookup "async" =
      List.lookup "async_" [("continue_", JVal.bool false), ("decision", JVal.str "block")] ∧
    (convertHookOutputForCli [("continue_", .bool false), ("decision", .str "block")]).lookup "continue" =
      List.lookup "continue_" [("continue_", JVal.bool false), ("decision", JVal.str "block")] ∧
    (convertHookOutputForCli [("continue_", .bool false), ("decision", .str "block")]).lookup "async_" =
      none ∧
    (convertHookOutputForCli [("continue_", .bool false), ("decision", .str "block")]).lookup "continue_" =
      none :=
  C9_hook_output_amended [("continue_", .bool false), ("decision", .str "block")]
    (by simp) (by simp) (by simp)

/-- Witness for C8 with a parse oracle that accepts only the two-line
accumulation ab, showing retention after the first line and emission
after the second. -/
theorem C8_framing_step_witness :
    processLine (fun s => if s = "ab" then some .null else none) 10
      { jsonBuffer := "", emitted := [], exitError := none } "a" =
      { jsonBuffer := "a", emitted := [], exitError := none } ∧
    processLine (fun s => if s = "ab" then some .null else none) 10
      (processLine (fun s => if s = "ab" then some .null else none) 10
        { jsonBuffer := "", emitted := [], exitError := none } "a") "b" =
      { jsonBuffer := "", emitted := [.null], exitError := none } := by
  have h := C8_framing_step (fun s => if s = "ab" then some .null else none) 10
    { jsonBuffer := "", emitted := [], exitError := none } "a" (by decide)
  exact ⟨h.2.1 (by decide) rfl, h.2.2.2 "b" .null (by decide) rfl (by decide) (by decide) rfl⟩

/-! ### C6: delivery of content records -/

/-- Whether the read loop classifies a record as control traffic (the
three type discriminators it does not forward to the caller). -/
def isControlWireType (m : JVal) : Bool :=
  jGetStr m "type" = some "control_response" ∨ jGetStr m "type" = some "control_request" ∨
    jGetStr m "type" = some "control_cancel_request"

theorem handleControlResponse_preserves_queue (s : QueryState) (responseData : Option JVal) :
    (handleControlResponse s responseData).messageQueue = s.messageQueue ∧
    (handleControlResponse s responseData).closed = s.closed ∧
    (handleControlResponse s responseData).firstResultResolved = s.firstResultResolved := by
  unfold handleControlResponse
  repeat' split
  all_goals exact ⟨rfl, rfl, rfl⟩

theorem readLoop_fold_queue (env : QueryEnv) (messages : List JVal) :
    ∀ s : QueryState, s.closed = false → s.messageQueue.closed = false →
      (messages.foldl (readLoopStep env) s).closed = false ∧
      (messages.foldl (readLoopStep env) s).messageQueue.closed = false ∧
      (messages.foldl (readLoopStep env) s).messageQueue.items =
        s.messageQueue.items ++
          (messages.filter (fun m => !isControlWireType m)).map QueueItem.message := by
  induction messages with
  | nil => intro s h1 h2; exact ⟨h1, h2, by simp⟩
  | cons m rest ih =>
    intro s h1 h2
    simp only [List.foldl_cons]
    have hstep : (readLoopStep env s m).closed = false ∧
        (readLoopStep env s m).messageQueue.closed = false ∧
        (readLoopStep env s m).messageQueue.items =
          s.messageQueue.items ++
            (if isControlWireType m then [] else [QueueItem.message m]) := by
      unfold readLoopStep
      rw [if_neg (by rw [h1]; exact Bool.false_ne_true)]
      by_cases hresp : jGetStr m "type" = some "control_response"
      · rw [if_pos hresp]
        have hq := handleControlResponse_preserves_queue s (jGet m "response")
        refine ⟨hq.2.1.trans h1, hq.1 ▸ h2, ?_⟩
        rw [hq.1, if_pos (by simp [isControlWireType, hresp])]
        simp
      · rw [if_neg hresp]
        by_cases hreq : jGetStr m "type" = some "control_request"
        · rw [if_pos hreq]
          refine ⟨h1, h2, ?_⟩
          rw [if_pos (by simp [isControlWireType, hreq])]
          simp
        · rw [if_neg hreq]
          by_cases hcan : jGetStr m "type" = some "control_cancel_request"
          · rw [if_pos hcan]
            refine ⟨h1, h2, ?_⟩
            rw [if_pos (by simp [isControlWireType, hcan])]
            simp
          · rw [if_neg hcan]
            have hctl : isControlWireType m = false := by
              simp [isControlWireType, hresp, hreq, hcan]
            by_cases hres : jGetStr m "type" = some "result" ∧ !s.firstResultResolved
            · rw [if_pos hres]
              refine ⟨h1, ?_, ?_⟩ <;>
                simp [AsyncQueue.push, h2, hctl]
            · rw [if_neg hres]
              refine ⟨h1, ?_, ?_⟩ <;>
                simp [AsyncQueue.push, h2, hctl]
    obtain ⟨hs1, hs2, hs3⟩ := hstep
    obtain ⟨hr1, hr2, hr3⟩ := ih (readLoopStep env s m) hs1 hs2
    refine ⟨hr1, hr2, ?_⟩
    rw [hr3, hs3]
    by_cases hctl : isControlWireType m
    · simp [List.filter_cons, hctl]
    · simp only [Bool.not_eq_true] at hctl
      simp [List.filter_cons, hctl]

theorem receiveMessagesAux_messages (l : List JVal) :
    receiveMessagesAux (l.map QueueItem.message ++ [QueueItem.endItem]) true = (l, .ended) := by
  induction l with
  | nil => rfl
  | cons v rest ih =>
    simp only [List.map_cons, List.cons_append, receiveMessagesAux, List.append_eq, ih]

/-- C6: running the read loop over any transport record sequence and then
iterating receiveMessages delivers exactly the records whose type is not
control_response, control_request or control_cancel_request, once each,
in the order they were read — the records are buffered in the delivery
queue before the consumer pulls, so pre-consumer pushes are included —
and the iteration ends at end-of-stream. -/
theorem C6_content_delivery_order (env : QueryEnv) (messages : List JVal) :
    receiveMessages (readMessagesLoop env (initialQueryState true) messages none).messageQueue =
      (messages.filter (fun m => !isControlWireType m), .ended) := by
  have hfold := readLoop_fold_queue env messages (initialQueryState true) rfl rfl
  unfold readMessagesLoop
  obtain ⟨h1, h2, h3⟩ := hfold
  unfold readLoopFinally receiveMessages
  simp only [AsyncQueue.push, AsyncQueue.closeQ, h2, Bool.false_eq_true, if_false]
  rw [h3]
  have : (initialQueryState true).messageQueue.items = [] := rfl
  rw [this, List.nil_append]
  exact receiveMessagesAux_messages _

/-! ### Association-list lemmas for the correlation table -/

theorem lookup_eraseP_decomp {β : Type} (l : List (String × β)) (k : String) (v : β)
    (h : l.lookup k = some v) :
    ∃ l1 l2, l = l1 ++ (k, v) :: l2 ∧ (∀ e ∈ l1, e.1 ≠ k) ∧
      l.eraseP (fun e => e.1 == k) = l1 ++ l2 := by
  induction l with
  | nil => simp [List.lookup] at h
  | cons p rest ih =>
    rcases p with ⟨a, b⟩
    by_cases hk : k = a
    · subst hk
      have hb : b = v := by
        simpa [List.lookup] using h
      subst hb
      refine ⟨[], rest, by simp, by simp, ?_⟩
      simp [List.eraseP_cons]
    · have hbeq : (k == a) = false := beq_eq_false_iff_ne.mpr hk
      have hlook : List.lookup k rest = some v := by
        simpa [List.lookup, hbeq] using h
      obtain ⟨l1, l2, heq, hne, herase⟩ := ih hlook
      have habeq : (a == k) = false := beq_eq_false_iff_ne.mpr (fun hc => hk hc.symm)
      refine ⟨(a, b) :: l1, l2, by simp [heq], ?_, ?_⟩
      · intro e he
        rcases List.mem_cons.mp he with rfl | he2
        · exact fun hc => hk hc.symm
        · exact hne e he2
      · simp [List.eraseP_cons, habeq, herase]

theorem lookup_of_not_mem {β : Type} (l : List (String × β)) (k : String)
    (h : ∀ e ∈ l, e.1 ≠ k) : l.lookup k = none := by
  induction l with
  | nil => rfl
  | cons p rest ih =>
    have hp : (k == p.1) = false := by
      rw [beq_eq_false_iff_ne]
      intro hc
      exact h p (by simp) hc.symm
    simp only [List.lookup, hp]
    exact ih (fun e he => h e (by simp [he]))

theorem lookup_append_left_none {β : Type} (l1 l2 : List (String × β)) (k : String)
    (h : l1.lookup k = none) : (l1 ++ l2).lookup k = l2.lookup k := by
  induction l1 with
  | nil => rfl
  | cons p rest ih =>
    by_cases hp : k == p.1
    · simp [List.lookup, hp] at h
    · simp only [List.lookup, hp, List.cons_append] at h ⊢
      simp only [Bool.false_eq_true, if_false] at *
      exact ih h

theorem lookup_middle_skip {β : Type} (l1 l2 : List (String × β)) (k other : String) (v : β)
    (hne : other ≠ k) :
    List.lookup other (l1 ++ (k, v) :: l2) = List.lookup other (l1 ++ l2) := by
  induction l1 with
  | nil =>
    have : (other == k) = false := beq_eq_false_iff_ne.mpr hne
    simp [List.lookup, this]
  | cons p rest ih =>
    by_cases hp : other == p.1
    · simp [List.lookup, hp]
    · simp only [List.cons_append, List.lookup, hp]
      exact ih

/-- C4: when the timer of a pending outbound request fires, the entry is
removed from the correlation table and its handle is rejected with a
timeout error naming the request subtype; no other entry of the table is
affected; and a control_response for the same id arriving afterwards is
silently discarded — the state, including every other pending request, is
left exactly as it was. -/
theorem C4_timeout_rejects_and_late_response_discarded (s : QueryState) (requestId : String)
    (pc : PendingControl) (rd : JVal)
    (hnodup : (s.pendingControlResponses.map Prod.fst).Nodup)
    (hlook : s.pendingControlResponses.lookup requestId = some pc)
    (hrid : jGetStr rd "request_id" = some requestId) :
    (timeoutFire s requestId).settled =
      s.settled ++ [(pc.handle, .rejected ("Control request timeout: " ++ pc.subtype))] ∧
    (timeoutFire s requestId).pendingControlResponses.lookup requestId = none ∧
    (∀ other, other ≠ requestId →
      (timeoutFire s requestId).pendingControlResponses.lookup other =
        s.pendingControlResponses.lookup other) ∧
    handleControlResponse (timeoutFire s requestId) (some rd) = timeoutFire s requestId := by
  obtain ⟨l1, l2, heq, hne1, herase⟩ := lookup_eraseP_decomp _ requestId pc hlook
  have hs' : timeoutFire s requestId =
      { s with
          pendingControlResponses :=
            s.pendingControlResponses.eraseP (fun e => e.1 == requestId)
          settled := s.settled ++
            [(pc.handle, .rejected ("Control request timeout: " ++ pc.subtype))] } := by
    unfold timeoutFire
    rw [hlook]
  have hl2 : ∀ e ∈ l2, e.1 ≠ requestId := by
    have hn := hnodup
    rw [heq] at hn
    simp only [List.map_append, List.map_cons, List.nodup_append, List.nodup_cons] at hn
    intro e he hc
    exact hn.2.1.1 (hc ▸ List.mem_map.mpr ⟨e, he, rfl⟩)
  have hnone : (timeoutFire s requestId).pendingControlResponses.lookup requestId = none := by
    rw [hs']
    show (s.pendingControlResponses.eraseP (fun e => e.1 == requestId)).lookup requestId = none
    rw [herase]
    rw [lookup_append_left_none l1 l2 requestId (lookup_of_not_mem l1 requestId hne1)]
    exact lookup_of_not_mem l2 requestId hl2
  refine ⟨by rw [hs'], hnone, ?_, ?_⟩
  · intro other hother
    rw [hs']
    show (s.pendingControlResponses.eraseP (fun e => e.1 == requestId)).lookup other =
      s.pendingControlResponses.lookup other
    rw [herase, heq]
    exact (lookup_middle_skip l1 l2 requestId other pc hother).symm
  · by_cases hemp : requestId = ""
    · simp [handleControlResponse, hrid, hemp]
    · simp [handleControlResponse, hrid, hemp, hnone]

/-- Witness for C4 at an engine with two pending requests, firing the
timer of the first. -/
theorem C4_timeout_witness :
    (timeoutFire
      { isStreamingMode := true, requestCounter := 2,
        pendingControlResponses :=
          [("req_2_bbbb2222", { handle := 2, subtype := "set_model" }),
           ("req_1_aaaa1111", { handle := 1, subtype := "interrupt" })],
        settled := [], closed := false,
        messageQueue := { items := [], closed := false },
        firstResultResolved := false, writes := [] } "req_1_aaaa1111").settled =
      [(1, .rejected "Control request timeout: interrupt")] ∧
    (timeoutFire
      { isStreamingMode := true, requestCounter := 2,
        pendingControlResponses :=
          [("req_2_bbbb2222", { handle := 2, subtype := "set_model" }),
           ("req_1_aaaa1111", { handle := 1, subtype := "interrupt" })],
        settled := [], closed := false,
        messageQueue := { items := [], closed := false },
        firstResultResolved := false, writes := [] }
      "req_1_aaaa1111").pendingControlResponses.lookup "req_1_aaaa1111" = none ∧
    (∀ other, other ≠ "req_1_aaaa1111" →
      (timeoutFire
        { isStreamingMode := true, requestCounter := 2,
          pendingControlResponses :=
            [("req_2_bbbb2222", { handle := 2, subtype := "set_model" }),
             ("req_1_aaaa1111", { handle := 1, subtype := "interrupt" })],
          settled := [], closed := false,
          messageQueue := { items := [], closed := false },
          firstResultResolved := false, writes := [] } "req_1_aaaa1111").pendingControlResponses.lookup other =
        List.lookup other
          [("req_2_bbbb2222", { handle := 2, subtype := "set_model" }),
           ("req_1_aaaa1111", { handle := 1, subtype := "interrupt" })]) ∧
    handleControlResponse
      (timeoutFire
        { isStreamingMode := true, requestCounter := 2,
          pendingControlResponses :=
            [("req_2_bbbb2222", { handle := 2, subtype := "set_model" }),
             ("req_1_aaaa1111", { handle := 1, subtype := "interrupt" })],
          settled := [], closed := false,
          messageQueue := { items := [], closed := false },
          firstResultResolved := false, writes := [] } "req_1_aaaa1111")
      (some (.obj [("request_id", .str "req_1_aaaa1111"), ("subtype", .str "success")])) =
      timeoutFire
        { isStreamingMode := true, requestCounter := 2,
          pendingControlResponses :=
            [("req_2_bbbb2222", { handle := 2, subtype := "set_model" }),
             ("req_1_aaaa1111", { handle := 1, subtype := "interrupt" })],
          settled := [], closed := false,
          messageQueue := { items := [], closed := false },
          firstResultResolved := false, writes := [] } "req_1_aaaa1111" :=
  C4_timeout_rejects_and_late_response_discarded
    { isStreamingMode := true, requestCounter := 2,
      pendingControlResponses :=
        [("req_2_bbbb2222", { handle := 2, subtype := "set_model" }),
         ("req_1_aaaa1111", { handle := 1, subtype := "interrupt" })],
      settled := [], closed := false,
      messageQueue := { items := [], closed := false },
      firstResultResolved := false, writes := [] }
    "req_1_aaaa1111" { handle := 1, subtype := "interrupt" }
    (.obj [("request_id", .str "req_1_aaaa1111"), ("subtype", .str "success")])
    (by decide) rfl rfl

/-! ### C1: the correlation table settles every handle exactly once -/

/-- How many live correlation-table entries hold the given completion
handle. -/
def pendingHandleCount (l : List (String × PendingControl)) (h : Nat) : Nat :=
  l.countP (fun e => e.2.handle == h)

/-- How many settlement records the given completion handle has. -/
def settledCount (l : List (Nat × SettleRes)) (h : Nat) : Nat :=
  l.countP (fun e => e.1 == h)

/-- The engine invariant: every handle the counter has issued is either
live in the table or settled, exactly once in total; handles the counter
has not issued appear nowhere; each live entry's id is the underscore-free
encoding of its handle; and the table's ids are pairwise distinct. -/
structure QueryInv (s : QueryState) : Prop where
  counts : ∀ h : Nat,
    pendingHandleCount s.pendingControlResponses h + settledCount s.settled h =
      if 1 ≤ h ∧ h ≤ s.requestCounter then 1 else 0
  forms : ∀ e ∈ s.pendingControlResponses,
    ∃ suf, suffixOk suf ∧ e.1 = mkRequestId e.2.handle suf ∧ e.2.handle ≤ s.requestCounter
  keysNodup : (s.pendingControlResponses.map Prod.fst).Nodup

theorem inv_init (b : Bool) : QueryInv (initialQueryState b) := by
  constructor
  · intro h
    show 0 + 0 = if 1 ≤ h ∧ h ≤ 0 then 1 else 0
    rw [if_neg (by omega)]
  · intro e he
    simp [initialQueryState] at he
  · simp [initialQueryState]

theorem pendingHandleCount_cons (entry : String × PendingControl)
    (l : List (String × PendingControl)) (h : Nat) :
    pendingHandleCount (entry :: l) h =
      pendingHandleCount l h + (if entry.2.handle = h then 1 else 0) := by
  by_cases hh : entry.2.handle = h <;>
    simp [pendingHandleCount, List.countP_cons, hh]

theorem settledCount_append_one (l : List (Nat × SettleRes)) (hdl : Nat) (r : SettleRes)
    (h : Nat) :
    settledCount (l ++ [(hdl, r)]) h = settledCount l h + (if hdl = h then 1 else 0) := by
  by_cases hh : hdl = h <;>
    simp [settledCount, List.countP_append, List.countP_cons, hh]

theorem pendingHandleCount_middle (l1 l2 : List (String × PendingControl)) (k : String)
    (pc : PendingControl) (h : Nat) :
    pendingHandleCount (l1 ++ (k, pc) :: l2) h =
      pendingHandleCount (l1 ++ l2) h + (if pc.handle = h then 1 else 0) := by
  by_cases hh : pc.handle = h <;>
    simp [pendingHandleCount, List.countP_append, List.countP_cons, hh] <;> omega

theorem settledCount_map_pending (l : List (String × PendingControl)) (err : String) (h : Nat) :
    settledCount (l.map (fun entry => (entry.2.handle, SettleRes.rejected err))) h =
      pendingHandleCount l h := by
  simp only [settledCount, pendingHandleCount, List.countP_map]
  rfl

/-- Settling one looked-up entry (remove it, append one settlement of its
handle) preserves the engine invariant. -/
theorem inv_settle (s : QueryState) (requestId : String) (pc : PendingControl) (r : SettleRes)
    (hinv : QueryInv s) (hlook : s.pendingControlResponses.lookup requestId = some pc) :
    QueryInv { s with
        pendingControlResponses := s.pendingControlResponses.eraseP (fun e => e.1 == requestId)
        settled := s.settled ++ [(pc.handle, r)] } := by
  obtain ⟨l1, l2, heq, hne1, herase⟩ := lookup_eraseP_decomp _ requestId pc hlook
  constructor
  · intro h
    have hold := hinv.counts h
    have hcl : pendingHandleCount s.pendingControlResponses h =
        pendingHandleCount (l1 ++ l2) h + (if pc.handle = h then 1 else 0) := by
      rw [heq]
      exact pendingHandleCount_middle l1 l2 requestId pc h
    have hcs : settledCount (s.settled ++ [(pc.handle, r)]) h =
        settledCount s.settled h + (if pc.handle = h then 1 else 0) :=
      settledCount_append_one s.settled pc.handle r h
    show pendingHandleCount (s.pendingControlResponses.eraseP (fun e => e.1 == requestId)) h +
        settledCount (s.settled ++ [(pc.handle, r)]) h =
      if 1 ≤ h ∧ h ≤ s.requestCounter then 1 else 0
    rw [herase, hcs]
    by_cases hh : pc.handle = h
    · rw [if_pos hh] at hcl ⊢
      split_ifs at hold ⊢ <;> omega
    · rw [if_neg hh] at hcl ⊢
      split_ifs at hold ⊢ <;> omega
  · intro e he
    have he2 : e ∈ l1 ++ l2 := by
      have : e ∈ s.pendingControlResponses.eraseP (fun ent => ent.1 == requestId) := he
      rwa [herase] at this
    have hmem : e ∈ s.pendingControlResponses := by
      rw [heq]
      rcases List.mem_append.mp he2 with h1 | h2
      · exact List.mem_append_left _ h1
      · exact List.mem_append_right _ (List.mem_cons_of_mem _ h2)
    exact hinv.forms e hmem
  · show ((s.pendingControlResponses.eraseP (fun e => e.1 == requestId)).map Prod.fst).Nodup
    exact hinv.keysNodup.sublist ((List.eraseP_sublist _).map Prod.fst)

/-- handleControlResponse either leaves the state unchanged (no id, empty
id, or no matching entry) or settles exactly the entry keyed by the
response's own request_id. -/
theorem handleControlResponse_shape (s : QueryState) (responseData : Option JVal) :
    handleControlResponse s responseData = s ∨
    ∃ requestId pc r,
      responseData.bind (fun rd => jGetStr rd "request_id") = some requestId ∧
      requestId ≠ "" ∧
      s.pendingControlResponses.lookup requestId = some pc ∧
      handleControlResponse s responseData =
        { s with
            pendingControlResponses := s.pendingControlResponses.eraseP (fun e => e.1 == requestId)
            settled := s.settled ++ [(pc.handle, r)] } := by
  rcases hrid : responseData.bind (fun rd => jGetStr rd "request_id") with _ | requestId
  · left
    simp [handleControlResponse, hrid]
  · by_cases hemp : requestId = ""
    · left
      simp [handleControlResponse, hrid, hemp]
    · rcases hlook : s.pendingControlResponses.lookup requestId with _ | pc
      · left
        simp [handleControlResponse, hrid, hemp, hlook]
      · right
        by_cases herr : responseData.bind (fun rd => jGetStr rd "subtype") = some "error"
        · exact ⟨requestId, pc,
            .rejected ((responseData.bind (fun rd => jGetStr rd "error")).getD "Unknown error"),
            rfl, hemp, hlook, by simp [handleControlResponse, hrid, hemp, hlook, herr]⟩
        · exact ⟨requestId, pc,
            .resolved (match responseData.bind (fun rd => jGet rd "response") with
              | some v => if isObjLike v then v else .obj []
              | none => .obj []),
            rfl, hemp, hlook, by simp [handleControlResponse, hrid, hemp, hlook, herr]⟩

theorem settledCount_append (a b : List (Nat × SettleRes)) (h : Nat) :
    settledCount (a ++ b) h = settledCount a h + settledCount b h := by
  simp [settledCount, List.countP_append]

theorem inv_core {s s' : QueryState} (hinv : QueryInv s)
    (hp : s'.pendingControlResponses = s.pendingControlResponses)
    (hs : s'.settled = s.settled) (hc : s'.requestCounter = s.requestCounter) : QueryInv s' := by
  constructor
  · intro h
    rw [hp, hs, hc]
    exact hinv.counts h
  · intro e he
    rw [hc]
    exact hinv.forms e (hp ▸ he)
  · rw [hp]
    exact hinv.keysNodup

theorem inv_handleControlResponse (s : QueryState) (responseData : Option JVal)
    (hinv : QueryInv s) : QueryInv (handleControlResponse s responseData) := by
  rcases handleControlResponse_shape s responseData with heq | ⟨rid, pc, r, _, _, hlook, heq⟩
  · rw [heq]
    exact hinv
  · rw [heq]
    exact inv_settle s rid pc r hinv hlook

theorem inv_timeoutFire (s : QueryState) (rid : String) (hinv : QueryInv s) :
    QueryInv (timeoutFire s rid) := by
  unfold timeoutFire
  rcases hlook : s.pendingControlResponses.lookup rid with _ | pc
  · exact hinv
  · exact inv_settle s rid pc
      (.rejected ("Control request timeout: " ++ pc.subtype)) hinv hlook

theorem inv_readLoopStep (env : QueryEnv) (s : QueryState) (m : JVal) (hinv : QueryInv s) :
    QueryInv (readLoopStep env s m) := by
  unfold readLoopStep
  by_cases hclosed : s.closed = true
  · rw [if_pos hclosed]
    exact hinv
  · rw [if_neg hclosed]
    by_cases h1 : jGetStr m "type" = some "control_response"
    · rw [if_pos h1]
      exact inv_handleControlResponse s (jGet m "response") hinv
    · rw [if_neg h1]
      by_cases h2 : jGetStr m "type" = some "control_request"
      · rw [if_pos h2]
        exact inv_core hinv rfl rfl rfl
      · rw [if_neg h2]
        by_cases h3 : jGetStr m "type" = some "control_cancel_request"
        · rw [if_pos h3]
          exact hinv
        · rw [if_neg h3]
          by_cases h4 : jGetStr m "type" = some "result" ∧ !s.firstResultResolved
          · rw [if_pos h4]
            exact inv_core hinv rfl rfl rfl
          · rw [if_neg h4]
            exact inv_core hinv rfl rfl rfl

theorem inv_readFail (s : QueryState) (e : String) (hinv : QueryInv s) :
    QueryInv (readLoopFinally (readLoopCatch s e)) := by
  constructor
  · intro h
    have hold := hinv.counts h
    show pendingHandleCount [] h +
        settledCount (s.settled ++
          s.pendingControlResponses.map (fun entry => (entry.2.handle, SettleRes.rejected e))) h =
      if 1 ≤ h ∧ h ≤ s.requestCounter then 1 else 0
    rw [settledCount_append, settledCount_map_pending]
    have hz : pendingHandleCount [] h = 0 := rfl
    rw [hz]
    split_ifs at hold ⊢ <;> omega
  · intro e' he'
    exact absurd he' (List.not_mem_nil e')
  · exact List.nodup_nil

theorem inv_sendOk (s : QueryState) (subtype : String) (params : List (String × JVal))
    (suffix : String) (hsuf : suffixOk suffix) (hinv : QueryInv s)
    (hstream : s.isStreamingMode = true) :
    QueryInv { s with
        requestCounter := s.requestCounter + 1
        pendingControlResponses :=
          (mkRequestId (s.requestCounter + 1) suffix,
            { handle := s.requestCounter + 1, subtype := subtype }) :: s.pendingControlResponses
        writes := s.writes ++
          [.controlRequest (mkRequestId (s.requestCounter + 1) suffix) subtype params] } := by
  constructor
  · intro h
    have hold := hinv.counts h
    show pendingHandleCount
        ((mkRequestId (s.requestCounter + 1) suffix,
          { handle := s.requestCounter + 1, subtype := subtype }) :: s.pendingControlResponses) h +
      settledCount s.settled h = if 1 ≤ h ∧ h ≤ s.requestCounter + 1 then 1 else 0
    rw [pendingHandleCount_cons]
    show pendingHandleCount s.pendingControlResponses h +
        (if s.requestCounter + 1 = h then 1 else 0) + settledCount s.settled h =
      if 1 ≤ h ∧ h ≤ s.requestCounter + 1 then 1 else 0
    by_cases hh : s.requestCounter + 1 = h
    · rw [if_pos hh]
      split_ifs at hold ⊢ <;> omega
    · rw [if_neg hh]
      split_ifs at hold ⊢ <;> omega
  · intro e he
    rcases List.mem_cons.mp he with rfl | he2
    · exact ⟨suffix, hsuf, rfl, le_refl _⟩
    · obtain ⟨suf, h1, h2, h3⟩ := hinv.forms e he2
      exact ⟨suf, h1, h2, Nat.le_succ_of_le h3⟩
  · show (mkRequestId (s.requestCounter + 1) suffix ::
      s.pendingControlResponses.map Prod.fst).Nodup
    rw [List.nodup_cons]
    refine ⟨?_, hinv.keysNodup⟩
    intro hmem
    obtain ⟨e, he, hkey⟩ := List.mem_map.mp hmem
    obtain ⟨suf, hsufe, hform, hbound⟩ := hinv.forms e he
    rw [hform] at hkey
    have := mkRequestId_injective hsufe hsuf hkey
    omega

theorem inv_runEvent (env : QueryEnv) (s : QueryState) (ev : EngineEvent)
    (hsuf : eventSuffixOk ev) (hinv : QueryInv s) : QueryInv (runEvent env s ev) := by
  cases ev with
  | send subtype params suffix =>
    show QueryInv (match sendControlRequest s subtype params suffix with
      | .ok (s1, _) => s1
      | .error _ => s)
    unfold sendControlRequest
    by_cases hstream : s.isStreamingMode
    · rw [if_neg (by simp [hstream])]
      exact inv_sendOk s subtype params suffix hsuf hinv hstream
    · rw [if_pos (by simp [Bool.not_eq_true] at hstream ⊢; exact hstream)]
      exact hinv
  | recv m => exact inv_readLoopStep env s m hinv
  | timerFire rid => exact inv_timeoutFire s rid hinv
  | readFail e => exact inv_readFail s e hinv

theorem inv_runTrace (env : QueryEnv) :
    ∀ tr : List EngineEvent, traceSuffixOk tr →
      ∀ s : QueryState, QueryInv s → QueryInv (runTrace env s tr) := by
  intro tr
  induction tr with
  | nil => intro _ s hinv; exact hinv
  | cons ev rest ih =>
    intro hsuf s hinv
    have h1 : eventSuffixOk ev := hsuf ev (by simp)
    have h2 : traceSuffixOk rest := fun e he => hsuf e (by simp [he])
    exact ih h2 (runEvent env s ev) (inv_runEvent env s ev h1 hinv)

theorem settled_nodup_of_inv (s : QueryState) (hinv : QueryInv s) :
    (s.settled.map Prod.fst).Nodup := by
  rw [List.nodup_iff_count_le_one]
  intro h
  have hold := hinv.counts h
  have hle : settledCount s.settled h ≤ 1 := by
    split_ifs at hold <;> omega
  have hcc : List.count h (s.settled.map Prod.fst) = settledCount s.settled h := by
    rw [List.count_eq_countP, List.countP_map]
    rfl
  omega

theorem response_settles_only_matching (s : QueryState) (responseData : Option JVal) :
    ∀ p ∈ (handleControlResponse s responseData).settled,
      p ∈ s.settled ∨
      ∃ requestId pc,
        responseData.bind (fun rd => jGetStr rd "request_id") = some requestId ∧
        s.pendingControlResponses.lookup requestId = some pc ∧
        p.1 = pc.handle := by
  rcases handleControlResponse_shape s responseData with heq | ⟨rid, pc, r, hrid, _, hlook, heq⟩
  · rw [heq]
    exact fun p hp => .inl hp
  · rw [heq]
    intro p hp
    have hp2 : p ∈ s.settled ++ [(pc.handle, r)] := hp
    rcases List.mem_append.mp hp2 with h1 | h2
    · exact .inl h1
    · right
      have : p = (pc.handle, r) := by simpa using h2
      exact ⟨rid, pc, hrid, hlook, by rw [this]⟩

/-- C1: along any trace of engine events with hex suffixes, every
completion handle generated by sendControlRequest is settled at most once
(the settlement history holds no duplicate handle), each issued handle is
either still pending or settled exactly once (so the handle settles
exactly once in any trace that drains the table), the correlation-table
ids are pairwise distinct, and a control_response settles a handle only
through the table entry keyed by the exact request_id string it carries —
never the handle of a different pending id. -/
theorem C1_correlation_exactly_once (env : QueryEnv) (tr : List EngineEvent)
    (hsuf : traceSuffixOk tr) :
    ((runTrace env (initialQueryState true) tr).settled.map Prod.fst).Nodup ∧
    (∀ h : Nat,
      pendingHandleCount (runTrace env (initialQueryState true) tr).pendingControlResponses h +
        settledCount (runTrace env (initialQueryState true) tr).settled h =
      if 1 ≤ h ∧ h ≤ (runTrace env (initialQueryState true) tr).requestCounter then 1 else 0) ∧
    ((runTrace env (initialQueryState true) tr).pendingControlResponses.map Prod.fst).Nodup ∧
    (∀ responseData : Option JVal,
      ∀ p ∈ (handleControlResponse (runTrace env (initialQueryState true) tr) responseData).settled,
        p ∈ (runTrace env (initialQueryState true) tr).settled ∨
        ∃ requestId pc,
          responseData.bind (fun rd => jGetStr rd "request_id") = some requestId ∧
          (runTrace env (initialQueryState true) tr).pendingControlResponses.lookup requestId =
            some pc ∧
          p.1 = pc.handle) := by
  have hinv := inv_runTrace env tr hsuf (initialQueryState true) (inv_init true)
  exact ⟨settled_nodup_of_inv _ hinv, hinv.counts, hinv.keysNodup,
    fun responseData => response_settles_only_matching _ responseData⟩

/-- Witness for C1 on a concrete trace: one interrupt request followed by
its successful control_response. -/
theorem C1_correlation_exactly_once_witness :
    (((runTrace { canUseTool := none, hookCallbacks := [], sdkMcpServers := [] }
        (initialQueryState true)
        [.send "interrupt" [] "aa11bb22",
         .recv (.obj [("type", .str "control_response"),
                      ("response", .obj [("request_id", .str "req_1_aa11bb22"),
                                         ("subtype", .str "success")])])]).settled.map
      Prod.fst).Nodup) ∧
    (∀ h : Nat,
      pendingHandleCount (runTrace { canUseTool := none, hookCallbacks := [], sdkMcpServers := [] }
          (initialQueryState true)
          [.send "interrupt" [] "aa11bb22",
           .recv (.obj [("type", .str "control_response"),
                        ("response", .obj [("request_id", .str "req_1_aa11bb22"),
                                           ("subtype", .str "success")])])]).pendingControlResponses h +
        settledCount (runTrace { canUseTool := none, hookCallbacks := [], sdkMcpServers := [] }
          (initialQueryState true)
          [.send "interrupt" [] "aa11bb22",
           .recv (.obj [("type", .str "control_response"),
                        ("response", .obj [("request_id", .str "req_1_aa11bb22"),
                                           ("subtype", .str "success")])])]).settled h =
      if 1 ≤ h ∧ h ≤ (runTrace { canUseTool := none, hookCallbacks := [], sdkMcpServers := [] }
          (initialQueryState true)
          [.send "interrupt" [] "aa11bb22",
           .recv (.obj [("type", .str "control_response"),
                        ("response", .obj [("request_id", .str "req_1_aa11bb22"),
                                           ("subtype", .str "success")])])]).requestCounter
        then 1 else 0) ∧
    ((runTrace { canUseTool := none, hookCallbacks := [], sdkMcpServers := [] }
        (initialQueryState true)
        [.send "interrupt" [] "aa11bb22",
         .recv (.obj [("type", .str "control_response"),
                      ("response", .obj [("request_id", .str "req_1_aa11bb22"),
                                         ("subtype", .str "success")])])]).pendingControlResponses.map
      Prod.fst).Nodup ∧
    (∀ responseData : Option JVal,
      ∀ p ∈ (handleControlResponse
          (runTrace { canUseTool := none, hookCallbacks := [], sdkMcpServers := [] }
            (initialQueryState true)
            [.send "interrupt" [] "aa11bb22",
             .recv (.obj [("type", .str "control_response"),
                          ("response", .obj [("request_id", .str "req_1_aa11bb22"),
                                             ("subtype", .str "success")])])]) responseData).settled,
        p ∈ (runTrace { canUseTool := none, hookCallbacks := [], sdkMcpServers := [] }
            (initialQueryState true)
            [.send "interrupt" [] "aa11bb22",
             .recv (.obj [("type", .str "control_response"),
                          ("response", .obj [("request_id", .str "req_1_aa11bb22"),
                                             ("subtype", .str "success")])])]).settled ∨
        ∃ requestId pc,
          responseData.bind (fun rd => jGetStr rd "request_id") = some requestId ∧
          (runTrace { canUseTool := none, hookCallbacks := [], sdkMcpServers := [] }
              (initialQueryState true)
              [.send "interrupt" [] "aa11bb22",
               .recv (.obj [("type", .str "control_response"),
                            ("response", .obj [("request_id", .str "req_1_aa11bb22"),
                                               ("subtype", .str "success")])])]).pendingControlResponses.lookup
            requestId = some pc ∧
          p.1 = pc.handle) :=
  C1_correlation_exactly_once { canUseTool := none, hookCallbacks := [], sdkMcpServers := [] }
    [.send "interrupt" [] "aa11bb22",
     .recv (.obj [("type", .str "control_response"),
                  ("response", .obj [("request_id", .str "req_1_aa11bb22"),
                                     ("subtype", .str "success")])])]
    (by decide)

end RipperdocSdk
